import Mathlib

/-!
# youdu-sdk-go : verification development

A shallow embedding of package `ydapp` (`app.go`, `response.go`, `const.go`)
and theorems about it.

Conventions of the embedding.

* A Go `string` and a Go `[]byte` are both finite byte sequences; both are
  `List UInt8`, so the conversions `[]byte(s)` and `string(b)` are the identity.
* A Go function returning `(*T, error)` where exactly one of the two is nil is
  an `Except GoError T`; a function whose value is used although its error is
  discarded (`x, _ := f()`) returns the pair `T × Option GoError`.
* Everything outside the package (the HTTP client, `encoding/json`, the file
  system, the clock) and the files of the package that are not available
  (`AesEncrypt`, `AesDecrypt`, `NewRequest`, `NewJson`, `Error`, the callback
  types) are fields of an environment `Env`; every call that leaves the process
  is recorded in a trace of `Event`s, and the answer of the environment may
  depend on the trace so far.
* `log.Println` calls are not modelled.
-/

namespace ydapp

/-! ## Bytes and strings -/

abbrev Bytes := List UInt8

abbrev GoString := List UInt8

/-- The bytes of an ASCII string literal of the source. -/
def str (s : String) : GoString := s.data.map (fun c => UInt8.ofNat c.toNat)

/-! ## `encoding/base64`, `StdEncoding` -/

/-- Value of a character of the standard alphabet, `none` outside of it. -/
def b64val (c : UInt8) : Option Nat :=
  let n := c.toNat
  if 65 ≤ n ∧ n ≤ 90 then some (n - 65)
  else if 97 ≤ n ∧ n ≤ 122 then some (n - 71)
  else if 48 ≤ n ∧ n ≤ 57 then some (n + 4)
  else if n = 43 then some 62
  else if n = 47 then some 63
  else none

/-- Character of the standard alphabet for a value below 64. -/
def b64char (n : Nat) : UInt8 :=
  if n < 26 then UInt8.ofNat (n + 65)
  else if n < 52 then UInt8.ofNat (n + 71)
  else if n < 62 then UInt8.ofNat (n - 4)
  else if n = 62 then 43
  else 47

/-- The padding character `=`. -/
def b64pad : UInt8 := 61

/-- Decoding of the input once `\r` and `\n` are dropped: quanta of four
characters, the last one possibly padded; trailing bits of a padded quantum are
not checked (the decoder is not in strict mode). -/
def b64decodeQuanta : List UInt8 → Option Bytes
  | c0 :: c1 :: c2 :: c3 :: rest =>
    match b64val c0, b64val c1, b64val c2, b64val c3 with
    | some v0, some v1, some v2, some v3 =>
      match b64decodeQuanta rest with
      | some tl =>
        some (UInt8.ofNat (v0 * 4 + v1 / 16) :: UInt8.ofNat ((v1 % 16) * 16 + v2 / 4)
          :: UInt8.ofNat ((v2 % 4) * 64 + v3) :: tl)
      | none => none
    | some v0, some v1, some v2, none =>
      if c3 = b64pad ∧ rest = [] then
        some [UInt8.ofNat (v0 * 4 + v1 / 16), UInt8.ofNat ((v1 % 16) * 16 + v2 / 4)]
      else none
    | some v0, some v1, none, none =>
      if c2 = b64pad ∧ c3 = b64pad ∧ rest = [] then
        some [UInt8.ofNat (v0 * 4 + v1 / 16)]
      else none
    | _, _, _, _ => none
  | [] => some []
  | _ => none

/-- The error `base64.CorruptInputError` is reported as `none`. -/
def base64DecodeString (s : GoString) : Option Bytes :=
  b64decodeQuanta (s.filter (fun c => c != 10 && c != 13))

/-- Standard padded encoding, `base64.StdEncoding.EncodeToString`. -/
def base64EncodeToString : Bytes → GoString
  | a :: b :: c :: rest =>
    b64char (a.toNat / 4) :: b64char ((a.toNat % 4) * 16 + b.toNat / 16)
      :: b64char ((b.toNat % 16) * 4 + c.toNat / 64) :: b64char (c.toNat % 64)
      :: base64EncodeToString rest
  | [a, b] =>
    [b64char (a.toNat / 4), b64char ((a.toNat % 4) * 16 + b.toNat / 16),
      b64char ((b.toNat % 16) * 4), b64pad]
  | [a] => [b64char (a.toNat / 4), b64char ((a.toNat % 4) * 16), b64pad, b64pad]
  | [] => []

/-! ## Errors -/

/-- A Go `error` value, identified by how it was built. -/
inductive GoError where
  /-- The value of `errors.New(text)`, and the errors of the standard library,
  by their text. -/
  | new (text : GoString)
  /-- The value of the package helper `Error(msg, err)` for a non-nil `err`. -/
  | wrap (msg : GoString) (cause : GoError)
  /-- The value of the package helper `Error(msg, nil)`. -/
  | wrapNil (msg : GoString)
  deriving DecidableEq, Repr

/-- The package helper `Error(msg, err)`; its file is not available, so the
value is kept symbolic. -/
def Error (msg : GoString) (err : Option GoError) : GoError :=
  match err with
  | some c => GoError.wrap msg c
  | none => GoError.wrapNil msg

/-! ## Integers -/

/-- Conversion of an integer to `int32` (two-complement wrap-around). -/
def toInt32 (z : Int) : Int := (z + 2147483648) % 4294967296 - 2147483648

/-- Decimal text of an integer, as `fmt.Sprint` and the verb `%d` print it. -/
def fmtInt (z : Int) : GoString := str (toString z)

/-! ## `encoding/json` -/

/-- A value as `encoding/json` decodes it into an `interface{}`: `nil`, `bool`,
`float64` (every finite `float64` is a rational number), `string`,
`[]interface{}` and `map[string]interface{}`. The same type describes the values
handed to the request builder. -/
inductive JsonValue where
  | null
  | bool (b : Bool)
  | num (x : ℚ)
  | str (s : GoString)
  | arr (items : List JsonValue)
  | obj (fields : List (GoString × JsonValue))

/-- A Go `map[string]interface{}`: association list without repeated keys,
the nil map being the empty list. -/
abbrev GoMap := List (GoString × JsonValue)

/-- The assignment `m[k] = v`. -/
def mapSet (m : GoMap) (k : GoString) (v : JsonValue) : GoMap :=
  (k, v) :: m.filter (fun kv => kv.1 != k)

/-- The lookup `v, ok := m[k]`. -/
def mapGet (m : GoMap) (k : GoString) : Option JsonValue := m.lookup k

/-- Name of the JSON kind of a value in the message of `json.UnmarshalTypeError`. -/
def JsonValue.kind : JsonValue → GoString
  | .null => ydapp.str "null"
  | .bool _ => ydapp.str "bool"
  | .num _ => ydapp.str "number"
  | .str _ => ydapp.str "string"
  | .arr _ => ydapp.str "array"
  | .obj _ => ydapp.str "object"

/-! ## Data types of the package -/

/-- `RawMsg` of `response.go`; `Length` is an `int32`. -/
structure RawMsg where
  Data : Bytes
  Length : Int
  AppId : GoString
  deriving DecidableEq, Repr

/-- `ApiResponse` of `response.go`; `ErrCode` is an `int32`. -/
structure ApiResponse where
  ErrCode : Int
  ErrMsg : GoString
  param : GoMap
  body : Bytes

/-- `YdDepartment` of `types.go`. -/
structure YdDepartment where
  DeptId : Int
  Position : GoString
  Weight : Int
  SortId : Int
  deriving DecidableEq, Repr

/-- `YdUserInfo` of `types.go`. -/
structure YdUserInfo where
  Gender : Int
  UserId : GoString
  Name : GoString
  Mobile : GoString
  Phone : GoString
  Email : GoString
  DepartmentID : List Int
  DepDetail : List YdDepartment
  deriving DecidableEq, Repr

/-- Modelled from the spec: the type `ReceivePack` is declared in a file that is
not available; it is the outer frame of a callback, of which `Receive` reads the
field `Encrypt` (the JSON field `encrypt`). -/
structure ReceivePack where
  Encrypt : GoString
  deriving DecidableEq, Repr

/-- Modelled from the spec: the type `ReceiveMsg` is declared in a file that is
not available; it is the decoded inbound payload `{packageId, ...message fields}`,
of which `Receive` reads the field `PackageId`. -/
structure ReceiveMsg where
  PackageId : GoString
  MsgType : GoString
  Content : GoString
  deriving DecidableEq, Repr

/-- Modelled from the spec: the type `MpNews` is declared in a file that is not
available; the fields are the ones `SendMpNewsMsg` reads. An entry of the
argument list is the record a (non-nil) pointer of the list points to. -/
structure MpNews where
  Title : GoString
  MediaId : GoString
  Digest : GoString
  Content : GoString
  Url : GoString
  ShowFront : Int
  Path : GoString
  deriving DecidableEq, Repr

/-- Modelled from the spec: the type `ExLink` is declared in a file that is not
available; the fields are the ones `SendExLinkMsg` reads. An entry of the
argument list is the record a (non-nil) pointer of the list points to. -/
structure ExLink where
  Title : GoString
  Url : GoString
  Digest : GoString
  MediaId : GoString
  Path : GoString
  deriving DecidableEq, Repr

/-- A value of the interface `Receiver`, by an identifier of the object. -/
structure Receiver where
  id : Nat
  deriving DecidableEq, Repr

/-- The struct `MsgApp` of `app.go`; the field `hc` is the HTTP client, whose
behaviour is part of the environment. -/
structure MsgApp where
  buin : Int
  aesKey : Bytes
  appId : GoString
  accToken : GoString
  serverAddr : GoString
  recv : Option Receiver
  deriving DecidableEq, Repr

/-! ## The environment -/

/-- What `http.Client.Post` and `http.Client.Do` return when there is no
transport error: the status and the outcome of `ioutil.ReadAll` on the body. -/
structure HttpResponse where
  StatusCode : Int
  Status : GoString
  Body : Except GoError Bytes

/-- The part of an inbound `*http.Request` the package reads: the path of the
URL and what `ioutil.ReadAll(req.Body)` returns (its error is discarded). -/
structure HttpRequest where
  Path : GoString
  Body : Bytes
  deriving DecidableEq, Repr

/-- A part written to a `multipart.Writer`. -/
inductive MultipartPart where
  /-- The call `WriteField(name, value)`. -/
  | field (name value : GoString)
  /-- The calls `CreateFormFile(name, filename)` and `Write(content)`. -/
  | file (name filename : GoString) (content : Bytes)
  deriving DecidableEq, Repr

/-- An interaction of the package with the outside. -/
inductive Event where
  /-- The call `hc.Post(url, contentType, body)`. -/
  | httpPost (url contentType : GoString) (body : Bytes)
  /-- The call `hc.Do(req)` for a GET request of this URL. -/
  | httpGet (url : GoString)
  /-- The call `ioutil.ReadFile(path)`. -/
  | readFile (path : GoString)
  /-- The call `os.MkdirAll(dir, os.ModeDir)`. -/
  | mkdirAll (dir : GoString)
  /-- The call `ioutil.WriteFile(path, data, 0666)`. -/
  | writeFile (path : GoString) (data : Bytes)
  /-- The call `rw.Write(data)` on the response writer of a callback. -/
  | respWrite (data : Bytes)
  /-- The call `http.NotFound(rw, req)`. -/
  | notFound
  /-- The statement `go recv.Receive(&msg)`. -/
  | goReceive (recv : Receiver) (msg : ReceiveMsg)
  /-- A call of `AesEncrypt`, which draws random bytes. -/
  | random
  deriving DecidableEq, Repr

abbrev Trace := List Event

/-- Everything the package calls and that is not in `app.go`, `response.go` or
`const.go`. The answers of the outside world may depend on the trace so far. -/
structure Env where
  /-- Syntax check and decoding of a JSON text into an `interface{}`. -/
  jsonParse : Bytes → Except GoError JsonValue
  /-- The result of the conversion `int32(x)` for an `x` whose integer part is
  not an `int32`; the language leaves it to the implementation. -/
  int32OutOfRange : ℚ → Int
  /-- The text `err.Error()` of the error of `base64.StdEncoding.DecodeString`. -/
  base64ErrorText : GoString → GoString
  /-- The function `AesEncrypt(data, key, appId)`, file not available; the trace
  stands for the state of the random source. -/
  AesEncrypt : Trace → Bytes → Bytes → GoString → GoString × Option GoError
  /-- The function `AesDecrypt(s, key)`, file not available. -/
  AesDecrypt : GoString → Bytes → Except GoError RawMsg
  /-- The call `NewRequest()`, the calls `Set(key, value)` in this order and
  `Encode()`, file not available. -/
  requestEncode : List (GoString × JsonValue) → Bytes × Option GoError
  /-- The call `NewJson(data)` followed by `Get(key).String()`, file not available. -/
  jsonGetString : Bytes → GoString → GoString × Option GoError
  /-- The call `NewJson(data)` followed by `Get(key).Int64()`, file not available. -/
  jsonGetInt64 : Bytes → GoString → Int × Option GoError
  /-- The error of `NewJson(data)`, file not available. -/
  newJsonErr : Bytes → Option GoError
  /-- The call `json.Unmarshal(bs, &p)` for a `ReceivePack`. -/
  unmarshalReceivePack : Bytes → Except GoError ReceivePack
  /-- The call `json.Unmarshal(bs, &msg)` for a `ReceiveMsg`. -/
  unmarshalReceiveMsg : Bytes → Except GoError ReceiveMsg
  /-- The call `json.Unmarshal(bs, userInfo)` for a `YdUserInfo`. -/
  unmarshalUserInfo : Bytes → Except GoError YdUserInfo
  /-- The call `hc.Post(url, contentType, body)`. -/
  hcPost : Trace → GoString → GoString → Bytes → Except GoError HttpResponse
  /-- The call `http.NewRequest("GET", url, nil)`, the additions to the query
  and its encoding: the final URL, or the error of `http.NewRequest`. -/
  getRequestUrl : GoString → List (GoString × GoString) → Except GoError GoString
  /-- The call `hc.Do(req)` for a GET request of this URL. -/
  hcDo : Trace → GoString → Except GoError HttpResponse
  /-- The call `ioutil.ReadFile(path)`. -/
  readFile : Trace → GoString → Except GoError Bytes
  /-- The call `os.MkdirAll(dir, os.ModeDir)`. -/
  mkdirAll : Trace → GoString → Option GoError
  /-- The call `ioutil.WriteFile(path, data, 0666)`. -/
  writeFile : Trace → GoString → Bytes → Option GoError
  /-- The call `filepath.Split(path)`. -/
  filepathSplit : GoString → GoString × GoString
  /-- The call `time.Now().Unix()`. -/
  nowUnix : Trace → Int
  /-- The body and the content type (`FormDataContentType()`) of a
  `multipart.Writer` after these parts and `Close()`. -/
  multipart : Trace → List MultipartPart → Bytes × GoString

/-! ## `response.go` -/

def StatusOK : Int := 0

def ErrNoSuchField : GoError := GoError.new (str "no such param")

/-- The call `json.Unmarshal(bs, &m)` for a nil `map[string]interface{}`: a
syntax error is returned as it is, `null` leaves the map nil, an object fills a
new map field by field (a repeated key keeps its last value), any other value
is an `UnmarshalTypeError`. -/
def jsonUnmarshalMap (e : Env) (bs : Bytes) : GoMap × Option GoError :=
  match e.jsonParse bs with
  | .error err => ([], some err)
  | .ok .null => ([], none)
  | .ok (.obj fields) => (fields.foldl (fun m kv => mapSet m kv.1 kv.2) [], none)
  | .ok v => ([], some (GoError.new (str "json: cannot unmarshal " ++ v.kind
      ++ str " into Go value of type map[string]interface {}")))

/-- The conversion `int32(nn)` of a `float64`: the fraction is discarded
(truncation towards zero). -/
def float64ToInt32 (e : Env) (x : ℚ) : Int :=
  let t := Int.tdiv x.num x.den
  if -2147483648 ≤ t ∧ t ≤ 2147483647 then t else toInt32 (e.int32OutOfRange x)

def ApiResponse.GetString (rsp : ApiResponse) (key : GoString) : GoString × Option GoError :=
  match mapGet rsp.param key with
  | none => ([], some ErrNoSuchField)
  | some (.str s) => (s, none)
  | some _ => ([], some (GoError.new (str "type assertion to string failed")))

def ApiResponse.GetInt32 (e : Env) (rsp : ApiResponse) (key : GoString) :
    Int × Option GoError :=
  match mapGet rsp.param key with
  | none => (0, some ErrNoSuchField)
  | some (.num nn) => (float64ToInt32 e nn, none)
  | some _ => (0, some (GoError.new (str "type assertion to float failed")))

def NewResponse (e : Env) (bs : Bytes) : Except GoError ApiResponse :=
  let rsp : ApiResponse := { ErrCode := 0, ErrMsg := [], param := [], body := bs }
  match jsonUnmarshalMap e bs with
  | (_, some err) => .error err
  | (param, none) =>
    let rsp := { rsp with param := param }
    match rsp.GetInt32 e (str "errcode") with
    | (_, some err) => .error err
    | (code, none) =>
      let rsp := { rsp with ErrCode := code }
      match rsp.GetString (str "errmsg") with
      | (_, some err) => .error err
      | (msg, none) => .ok { rsp with ErrMsg := msg }

def ApiResponse.Status (rsp : ApiResponse) : GoString :=
  str "errcode: " ++ fmtInt rsp.ErrCode ++ str ", errmsg: " ++ rsp.ErrMsg

def ApiResponse.StatusOK (rsp : ApiResponse) : Bool :=
  rsp.ErrCode == ydapp.StatusOK

def ApiResponse.Error (rsp : ApiResponse) : Option GoError :=
  if rsp.StatusOK then none
  else some (GoError.new rsp.Status)

def ApiResponse.Body (rsp : ApiResponse) : Bytes := rsp.body

/-! ## `const.go` -/

def CallbackUrl : GoString := str "/receive/youdu/msg"

def API_GET_TOKEN : GoString := str "/cgi/gettoken"

def API_SEND_MSG : GoString := str "/cgi/msg/send"

def API_UPLOAD_FILE : GoString := str "/cgi/media/upload"

def API_DOWNLOAD_FILE : GoString := str "/cgi/media/get"

def API_SEARCH_FILE : GoString := str "/cgi/media/search"

def API_GET_USER : GoString := str "/cgi/user/get"

def QUERY_USERID : GoString := str "userId"

def MediaTypeFile : GoString := str "file"

def MediaTypeImage : GoString := str "image"

def MsgTypeText : GoString := str "text"

def MsgTypeFile : GoString := str "file"

def MsgTypeImage : GoString := str "image"

def MsgTypeMpNews : GoString := str "mpnews"

def MsgTypeExLink : GoString := str "exlink"

/-! ## `app.go` -/

def HttpJsonType : GoString := str "application/json"

def NewMsgApp (e : Env) (buin : Int) (appId encAesKey serverAddr : GoString) (t : Trace) :
    Except GoError MsgApp × Trace :=
  match base64DecodeString encAesKey with
  | none => (.error (GoError.new (str "Base64 decode error: " ++ e.base64ErrorText encAesKey)), t)
  | some key =>
    if key.length ≠ 32 then (.error (GoError.new (str "invalid aes key size")), t)
    else
      (.ok { buin := buin, aesKey := key, appId := appId, accToken := [],
             serverAddr := serverAddr, recv := none }, t)

def MsgApp.SetReceiver (m : MsgApp) (r : Option Receiver) : MsgApp :=
  { m with recv := r }

def MsgApp.encrypt (e : Env) (m : MsgApp) (data : Bytes) (t : Trace) :
    (GoString × Option GoError) × Trace :=
  (e.AesEncrypt t data m.aesKey m.appId, t ++ [Event.random])

def MsgApp.decrypt (e : Env) (m : MsgApp) (s : GoString) : Except GoError RawMsg :=
  e.AesDecrypt s m.aesKey

def MsgApp.post (e : Env) (m : MsgApp) (api ct : GoString) (req : Bytes) (t : Trace) :
    Except GoError ApiResponse × Trace :=
  let url := m.serverAddr ++ api ++ str "?accessToken=" ++ m.accToken
  let t1 := t ++ [Event.httpPost url ct req]
  match e.hcPost t url ct req with
  | .error err => (.error err, t1)
  | .ok httpRsp =>
    if httpRsp.StatusCode ≠ 200 then (.error (Error httpRsp.Status none), t1)
    else
      match httpRsp.Body with
      | .error err => (.error err, t1)
      | .ok bd =>
        match NewResponse e bd with
        | .error err => (.error (Error (str "Response unmarshal error") (some err)), t1)
        | .ok rsp => (.ok rsp, t1)

def MsgApp.get (e : Env) (m : MsgApp) (api : GoString) (queryStr : List (GoString × GoString))
    (t : Trace) : Except GoError ApiResponse × Trace :=
  match e.getRequestUrl (m.serverAddr ++ api ++ str "?accessToken=" ++ m.accToken) queryStr with
  | .error err => (.error err, t)
  | .ok url =>
    let t1 := t ++ [Event.httpGet url]
    match e.hcDo t url with
    | .error err => (.error err, t1)
    | .ok httpRsp =>
      if httpRsp.StatusCode ≠ 200 then (.error (Error httpRsp.Status none), t1)
      else
        match httpRsp.Body with
        | .error err => (.error err, t1)
        | .ok bd =>
          match NewResponse e bd with
          | .error err => (.error (Error (str "Response unmarshal error") (some err)), t1)
          | .ok rsp => (.ok rsp, t1)

def MsgApp.getFile (e : Env) (m : MsgApp) (req : Bytes) (t : Trace) :
    Except GoError Bytes × Trace :=
  let url := m.serverAddr ++ API_DOWNLOAD_FILE ++ str "?accessToken=" ++ m.accToken
  let t1 := t ++ [Event.httpPost url HttpJsonType req]
  match e.hcPost t url HttpJsonType req with
  | .error err => (.error err, t1)
  | .ok httpRsp =>
    if httpRsp.StatusCode ≠ 200 then (.error (Error httpRsp.Status none), t1)
    else
      match httpRsp.Body with
      | .error err => (.error err, t1)
      | .ok bd => (.ok bd, t1)

/-- The outer request frame `{buin, appId, encrypt}` of an operation. -/
def MsgApp.frame (e : Env) (m : MsgApp) (enc : GoString) : Bytes :=
  (e.requestEncode [(str "buin", .num m.buin), (str "appId", .str m.appId),
    (str "encrypt", .str enc)]).1

def MsgApp.GetToken (e : Env) (m : MsgApp) (t : Trace) :
    (GoString × Int × Option GoError) × MsgApp × Trace :=
  let timex := fmtInt (e.nowUnix t)
  match m.encrypt e timex t with
  | ((_, some err), t1) => (([], 0, some (Error (str "Encrypt error") (some err))), m, t1)
  | ((cipherText, none), t1) =>
    let bs := m.frame e cipherText
    match m.post e API_GET_TOKEN HttpJsonType bs t1 with
    | (.error err, t2) => (([], 0, some (Error (str "Post to get token error") (some err))), m, t2)
    | (.ok rsp, t2) =>
      if !rsp.StatusOK then (([], 0, rsp.Error), m, t2)
      else
        match rsp.GetString (str "encrypt") with
        | (_, some err) => (([], 0, some (Error (str "Get body error") (some err))), m, t2)
        | (enc, none) =>
          match m.decrypt e enc with
          | .error err =>
            (([], 0, some (Error (str "Decrypt access token error:") (some err))), m, t2)
          | .ok raw =>
            let m1 := { m with accToken := (e.jsonGetString raw.Data (str "accessToken")).1 }
            let expire := (e.jsonGetInt64 raw.Data (str "expireIn")).1
            ((m1.accToken, expire, none), m1, t2)

def MsgApp.upload (e : Env) (m : MsgApp) (ftype fname : GoString) (data : Bytes) (t : Trace) :
    (GoString × Option GoError) × Trace :=
  let bs := (e.requestEncode [(str "type", .str ftype), (str "name", .str fname)]).1
  let (encr, t1) := m.encrypt e bs t
  let (msgr, t2) := m.encrypt e data t1
  let mwr := e.multipart t2
    [.field (str "buin") (fmtInt m.buin), .field (str "appId") m.appId,
     .field (str "encrypt") encr.1, .file (str "file") fname msgr.1]
  match m.post e API_UPLOAD_FILE mwr.2 mwr.1 t2 with
  | (.error err, t3) => (([], some (Error (str "Post to upload file error") (some err))), t3)
  | (.ok rsp, t3) =>
    if !rsp.StatusOK then (([], rsp.Error), t3)
    else
      match rsp.GetString (str "encrypt") with
      | (_, some err) => (([], some (Error (str "Get encrypt error") (some err))), t3)
      | (enc, none) =>
        match m.decrypt e enc with
        | .error err => (([], some (Error (str "Aes decrypt error") (some err))), t3)
        | .ok raw =>
          match e.newJsonErr raw.Data with
          | some err => (([], some (Error (str "Json unmarshal error") (some err))), t3)
          | none => (((e.jsonGetString raw.Data (str "mediaId")).1, none), t3)

def MsgApp.UploadImageBytes (e : Env) (m : MsgApp) (name : GoString) (data : Bytes)
    (t : Trace) : (GoString × Option GoError) × Trace :=
  m.upload e MediaTypeImage name data t

def MsgApp.UploadImage (e : Env) (m : MsgApp) (name path : GoString) (t : Trace) :
    (GoString × Option GoError) × Trace :=
  let t1 := t ++ [Event.readFile path]
  match e.readFile t path with
  | .error err => (([], some err), t1)
  | .ok data => m.upload e MediaTypeImage name data t1

def MsgApp.UploadFileBytes (e : Env) (m : MsgApp) (name : GoString) (data : Bytes)
    (t : Trace) : (GoString × Option GoError) × Trace :=
  m.upload e MediaTypeFile name data t

def MsgApp.UploadFile (e : Env) (m : MsgApp) (name path : GoString) (t : Trace) :
    (GoString × Option GoError) × Trace :=
  let t1 := t ++ [Event.readFile path]
  match e.readFile t path with
  | .error err => (([], some err), t1)
  | .ok data => m.upload e MediaTypeFile name data t1

def MsgApp.save (e : Env) (data : Bytes) (path : GoString) (t : Trace) :
    Option GoError × Trace :=
  let dir := (e.filepathSplit path).1
  let t1 := t ++ [Event.mkdirAll dir]
  match e.mkdirAll t dir with
  | some err => (some err, t1)
  | none => (e.writeFile t1 path data, t1 ++ [Event.writeFile path data])

def MsgApp.download (e : Env) (m : MsgApp) (mediaId : GoString) (t : Trace) :
    Except GoError Bytes × Trace :=
  let bs := (e.requestEncode [(str "mediaId", .str mediaId)]).1
  let (encr, t1) := m.encrypt e bs t
  let bs := m.frame e encr.1
  match m.getFile e bs t1 with
  | (.error err, t2) => (.error (Error (str "Download file error") (some err)), t2)
  | (.ok bd, t2) =>
    match m.decrypt e bd with
    | .error err => (.error (Error (str "Decrypt error") (some err)), t2)
    | .ok raw => (.ok raw.Data, t2)

def MsgApp.DownloadFile (e : Env) (m : MsgApp) (mediaId : GoString) (t : Trace) :
    Except GoError Bytes × Trace :=
  match m.download e mediaId t with
  | (.error err, t1) => (.error err, t1)
  | (.ok bs, t1) => (.ok bs, t1)

def MsgApp.DownloadFileSave (e : Env) (m : MsgApp) (mediaId path : GoString) (t : Trace) :
    Option GoError × Trace :=
  match m.download e mediaId t with
  | (.error err, t1) => (some err, t1)
  | (.ok data, t1) => MsgApp.save e data path t1

def MsgApp.DownloadImage (e : Env) (m : MsgApp) (mediaId : GoString) (t : Trace) :
    Except GoError Bytes × Trace :=
  match m.download e mediaId t with
  | (.error err, t1) => (.error err, t1)
  | (.ok bs, t1) => (.ok bs, t1)

def MsgApp.DownloadImageSave (e : Env) (m : MsgApp) (mediaId path : GoString) (t : Trace) :
    Option GoError × Trace :=
  match m.download e mediaId t with
  | (.error err, t1) => (some err, t1)
  | (.ok data, t1) => MsgApp.save e data path t1

def MsgApp.SearchFile (e : Env) (m : MsgApp) (mediaId : GoString) (t : Trace) :
    (GoString × Int × Option GoError) × Trace :=
  let bs := (e.requestEncode [(str "mediaId", .str mediaId)]).1
  let (encr, t1) := m.encrypt e bs t
  let bs := m.frame e encr.1
  match m.post e API_SEARCH_FILE HttpJsonType bs t1 with
  | (.error err, t2) => (([], 0, some (Error (str "Post to search file error") (some err))), t2)
  | (.ok rsp, t2) =>
    match rsp.GetString (str "encrypt") with
    | (_, some err) => (([], 0, some (Error (str "Get encrypt error") (some err))), t2)
    | (enc, none) =>
      match m.decrypt e enc with
      | .error err => (([], 0, some (Error (str "Decrypt error") (some err))), t2)
      | .ok raw =>
        match e.jsonGetString raw.Data (str "name") with
        | (_, some err) => (([], 0, some err), t2)
        | (name, none) =>
          match e.jsonGetInt64 raw.Data (str "size") with
          | (_, some err) => (([], 0, some err), t2)
          | (size, none) => ((name, size, none), t2)

/-- The common tail of the send operations up to the call of `post`: the message
is encoded and encrypted, framed, and posted to `API_SEND_MSG`. -/
def MsgApp.postMsg (e : Env) (m : MsgApp) (msg : List (GoString × JsonValue)) (t : Trace) :
    Except GoError ApiResponse × Trace :=
  let bs := (e.requestEncode msg).1
  let (encr, t1) := m.encrypt e bs t
  let bs := m.frame e encr.1
  m.post e API_SEND_MSG HttpJsonType bs t1

def MsgApp.SendTxtMsg (e : Env) (m : MsgApp) (toUser toDept content : GoString) (t : Trace) :
    Option GoError × Trace :=
  let msg := [(str "toUser", JsonValue.str toUser), (str "toDept", .str toDept),
    (str "msgType", .str MsgTypeText), (str "text", .obj [(str "content", .str content)])]
  match m.postMsg e msg t with
  | (.error err, t1) => (some (Error (str "Send text msg error") (some err)), t1)
  | (.ok rsp, t1) =>
    if !rsp.StatusOK then (rsp.Error, t1)
    else (none, t1)

def MsgApp.SendImgMsg (e : Env) (m : MsgApp) (toUser toDept mediaId : GoString) (t : Trace) :
    Option GoError × Trace :=
  let msg := [(str "toUser", JsonValue.str toUser), (str "toDept", .str toDept),
    (str "msgType", .str MsgTypeImage), (str "image", .obj [(str "media_id", .str mediaId)])]
  match m.postMsg e msg t with
  | (.error err, t1) => (some (Error (str "Send image msg error") (some err)), t1)
  | (.ok rsp, t1) => (rsp.Error, t1)

def MsgApp.SendImg (e : Env) (m : MsgApp) (toUser toDept path : GoString) (t : Trace) :
    Option GoError × Trace :=
  let name := (e.filepathSplit path).2
  match m.UploadFile e name path t with
  | ((_, some err), t1) => (some err, t1)
  | ((mediaId, none), t1) => m.SendImgMsg e toUser toDept mediaId t1

def MsgApp.SendFileMsg (e : Env) (m : MsgApp) (toUser toDept mediaId : GoString) (t : Trace) :
    Option GoError × Trace :=
  let msg := [(str "toUser", JsonValue.str toUser), (str "toDept", .str toDept),
    (str "msgType", .str MsgTypeFile), (str "file", .obj [(str "media_id", .str mediaId)])]
  match m.postMsg e msg t with
  | (.error err, t1) => (some (Error (str "send file msg error") (some err)), t1)
  | (.ok rsp, t1) => (rsp.Error, t1)

def MsgApp.SendFile (e : Env) (m : MsgApp) (toUser toDept name path : GoString) (t : Trace) :
    Option GoError × Trace :=
  match m.UploadFile e name path t with
  | ((_, some err), t1) => (some err, t1)
  | ((mediaId, none), t1) => m.SendFileMsg e toUser toDept mediaId t1

/-- The loop of `SendMpNewsMsg` over the entries: the list of composed articles,
the entries as the loop leaves them (an empty `MediaId` is overwritten by the
value `UploadImage` returns, its error being discarded), and the trace. The
entries are taken to be distinct records. -/
def MsgApp.mpNewsLoop (e : Env) (m : MsgApp) : List MpNews → Trace →
    (List JsonValue × List MpNews) × Trace
  | [], t => (([], []), t)
  | mp :: rest, t =>
    let r :=
      if mp.MediaId.length = 0 then
        let u := m.UploadImage e (str "MpNews.jpg") mp.Path t
        (u.1.1, u.2)
      else (mp.MediaId, t)
    let mp1 := { mp with MediaId := r.1 }
    let news := JsonValue.obj [(str "title", .str mp1.Title), (str "media_id", .str mp1.MediaId),
      (str "digest", .str mp1.Digest), (str "content", .str mp1.Content),
      (str "url", .str mp1.Url), (str "showFront", .num mp1.ShowFront)]
    let k := MsgApp.mpNewsLoop e m rest r.2
    ((news :: k.1.1, mp1 :: k.1.2), k.2)

def MsgApp.SendMpNewsMsg (e : Env) (m : MsgApp) (toUser toDept : GoString)
    (mpNews : List MpNews) (t : Trace) : Option GoError × List MpNews × Trace :=
  let l := m.mpNewsLoop e mpNews t
  let msg := [(str "toUser", JsonValue.str toUser), (str "toDept", .str toDept),
    (str "msgType", .str MsgTypeMpNews), (str "MpNews", .arr l.1.1)]
  match m.postMsg e msg l.2 with
  | (.error err, t1) => (some (Error (str "Send MpNews error") (some err)), l.1.2, t1)
  | (.ok rsp, t1) => (rsp.Error, l.1.2, t1)

/-- The loop of `SendExLinkMsg` over the entries, as `mpNewsLoop`. -/
def MsgApp.exLinkLoop (e : Env) (m : MsgApp) : List ExLink → Trace →
    (List JsonValue × List ExLink) × Trace
  | [], t => (([], []), t)
  | link :: rest, t =>
    let r :=
      if link.MediaId.length = 0 then
        let u := m.UploadImage e (str "ExLink.jpg") link.Path t
        (u.1.1, u.2)
      else (link.MediaId, t)
    let link1 := { link with MediaId := r.1 }
    let ex := JsonValue.obj [(str "title", .str link1.Title), (str "url", .str link1.Url),
      (str "digest", .str link1.Digest), (str "media_id", .str link1.MediaId)]
    let k := MsgApp.exLinkLoop e m rest r.2
    ((ex :: k.1.1, link1 :: k.1.2), k.2)

def MsgApp.SendExLinkMsg (e : Env) (m : MsgApp) (toUser toDept : GoString)
    (links : List ExLink) (t : Trace) : Option GoError × List ExLink × Trace :=
  let l := m.exLinkLoop e links t
  let msg := [(str "toUser", JsonValue.str toUser), (str "toDept", .str toDept),
    (str "msgType", .str MsgTypeExLink), (str "ExLink", .arr l.1.1)]
  match m.postMsg e msg l.2 with
  | (.error err, t1) => (some err, l.1.2, t1)
  | (.ok rsp, t1) => (rsp.Error, l.1.2, t1)

def MsgApp.Receive (e : Env) (m : MsgApp) (req : HttpRequest) (t : Trace) : Trace :=
  let bs := req.Body
  match e.unmarshalReceivePack bs with
  | .error _ => t
  | .ok p =>
    match m.decrypt e p.Encrypt with
    | .error _ => t
    | .ok raw =>
      match e.unmarshalReceiveMsg raw.Data with
      | .error _ => t
      | .ok msg =>
        let t1 :=
          match m.recv with
          | some r => t ++ [Event.goReceive r msg]
          | none => t
        t1 ++ [Event.respWrite msg.PackageId]

def MsgApp.ServeHTTP (e : Env) (m : MsgApp) (req : HttpRequest) (t : Trace) : Trace :=
  if req.Path = CallbackUrl then m.Receive e req t
  else t ++ [Event.notFound]

def MsgApp.GetUserInfo (e : Env) (m : MsgApp) (user : GoString) (t : Trace) :
    (Option YdUserInfo × Option GoError) × Trace :=
  let queryStrMap := [(QUERY_USERID, user)]
  match m.get e API_GET_USER queryStrMap t with
  | (.error err, t1) => ((none, some err), t1)
  | (.ok rsp, t1) =>
    if !rsp.StatusOK then ((none, rsp.Error), t1)
    else
      match rsp.GetString (str "encrypt") with
      | (_, some err) => ((none, some (Error (str "Get body error") (some err))), t1)
      | (enc, none) =>
        match m.decrypt e enc with
        | .error err => ((none, some (Error (str "Decrypt access token error:") (some err))), t1)
        | .ok raw =>
          match e.unmarshalUserInfo raw.Data with
          | .error err => ((none, some err), t1)
          | .ok userInfo => ((some userInfo, none), t1)

/-! ## The envelope codec

The file that defines `AesEncrypt` and `AesDecrypt` is not available. The
definitions of this section follow the specification of the envelope; the block
cipher itself (`crypto/aes`) is a parameter. -/

/-- The block cipher of `crypto/aes` for a key: encryption and decryption of one
block of 16 bytes. -/
structure BlockCipher where
  encryptBlock : Bytes → Bytes → Bytes
  decryptBlock : Bytes → Bytes → Bytes

/-- Byte-wise exclusive or of two blocks. -/
def xorBytes (a b : Bytes) : Bytes := List.zipWith (fun x y => x ^^^ y) a b

/-- CBC encryption of `n` blocks of 16 bytes, `prev` being the previous
ciphertext block (the initialization vector for the first one). -/
def cbcEncryptBlocks (c : BlockCipher) (key : Bytes) : Nat → Bytes → Bytes → Bytes
  | 0, _, _ => []
  | n + 1, prev, data =>
    let ct := c.encryptBlock key (xorBytes (data.take 16) prev)
    ct ++ cbcEncryptBlocks c key n ct (data.drop 16)

/-- CBC decryption of `n` blocks of 16 bytes. -/
def cbcDecryptBlocks (c : BlockCipher) (key : Bytes) : Nat → Bytes → Bytes → Bytes
  | 0, _, _ => []
  | n + 1, prev, data =>
    let ct := data.take 16
    xorBytes (c.decryptBlock key ct) prev ++ cbcDecryptBlocks c key n ct (data.drop 16)

/-- PKCS#7 padding to the block size 16: between 1 and 16 bytes, each equal to
their number. -/
def pkcs7Pad (buf : Bytes) : Bytes :=
  let n := 16 - buf.length % 16
  buf ++ List.replicate n (UInt8.ofNat n)

/-- Removal of the PKCS#7 padding; `none` when the padding is invalid. -/
def pkcs7Unpad (buf : Bytes) : Option Bytes :=
  match buf.getLast? with
  | none => none
  | some b =>
    let n := b.toNat
    if 1 ≤ n ∧ n ≤ 16 ∧ n ≤ buf.length ∧ buf.drop (buf.length - n) = List.replicate n b then
      some (buf.take (buf.length - n))
    else none

/-- What the round trip needs of the block cipher for a key: a block of 16 bytes
is encrypted to a block of 16 bytes, which decrypts to the original block. -/
def BlockCipher.Sound (c : BlockCipher) (key : Bytes) : Prop :=
  ∀ b : Bytes, b.length = 16 →
    (c.encryptBlock key b).length = 16 ∧ c.decryptBlock key (c.encryptBlock key b) = b

/-- The four bytes of a `uint32` in big-endian order, for the value `n % 2^32`. -/
def putUint32BE (n : Nat) : Bytes :=
  [UInt8.ofNat (n / 16777216 % 256), UInt8.ofNat (n / 65536 % 256),
   UInt8.ofNat (n / 256 % 256), UInt8.ofNat (n % 256)]

/-- The `uint32` of (the first) four bytes in big-endian order. -/
def getUint32BE (bs : Bytes) : Nat :=
  match bs with
  | b0 :: b1 :: b2 :: b3 :: _ =>
    b0.toNat * 16777216 + b1.toNat * 65536 + b2.toNat * 256 + b3.toNat
  | _ => 0

/-- Modelled from the spec: `AesEncrypt(data, key, appId)`, file not available.
The buffer is 16 random bytes (`nonce`), the 4-byte big-endian length of the
payload, the payload and the bytes of `appId`; it is PKCS#7-padded to the block
size, encrypted in CBC mode under the 32-byte key with the first 16 bytes of the
key as initialization vector, and base64-encoded. A key that is not 32 bytes
long is an error. -/
def AesEncrypt (c : BlockCipher) (nonce : Bytes) (data key : Bytes) (appId : GoString) :
    GoString × Option GoError :=
  if key.length ≠ 32 then ([], some (GoError.new (str "crypto/aes: invalid key size")))
  else
    let buf := pkcs7Pad (nonce ++ putUint32BE data.length ++ data ++ appId)
    (base64EncodeToString (cbcEncryptBlocks c key (buf.length / 16) (key.take 16) buf), none)

/-- Modelled from the spec: `AesDecrypt(s, key)`, file not available. Base64
decoding, CBC decryption with the same initialization vector, removal of the
padding, then the 16-byte nonce is dropped, the 4-byte length is read, the
payload of that length is sliced and the rest is the app id. It fails when the
base64 text is malformed, the ciphertext is not a whole number of blocks, the
padding is invalid or the declared length exceeds what is left of the buffer. -/
def AesDecrypt (c : BlockCipher) (s : GoString) (key : Bytes) : Except GoError RawMsg :=
  if key.length ≠ 32 then .error (GoError.new (str "crypto/aes: invalid key size"))
  else
    match base64DecodeString s with
    | none => .error (GoError.new (str "illegal base64 data"))
    | some ct =>
      if ct.length % 16 ≠ 0 then .error (GoError.new (str "ciphertext is not a multiple of the block size"))
      else
        match pkcs7Unpad (cbcDecryptBlocks c key (ct.length / 16) (key.take 16) ct) with
        | none => .error (GoError.new (str "invalid padding"))
        | some buf =>
          if buf.length < 20 then .error (GoError.new (str "buffer too short"))
          else
            let length := getUint32BE (buf.drop 16)
            let rest := buf.drop 20
            if length > rest.length then .error (GoError.new (str "invalid length"))
            else
              .ok { Data := rest.take length, Length := toInt32 length, AppId := rest.drop length }

/-- An environment whose envelope codec is the one modelled from the spec, for
a block cipher and a source of random bytes. -/
def Env.withCodec (e : Env) (c : BlockCipher) (nonce : Trace → Bytes) : Env :=
  { e with
    AesEncrypt := fun t data key appId => ydapp.AesEncrypt c (nonce t) data key appId
    AesDecrypt := fun s key => ydapp.AesDecrypt c s key }

deriving instance DecidableEq for Except

/-! ## Sample environments and inputs -/

/-- A sample block cipher: the second half of the key is added to the block
(exclusive or), so that decryption is the same operation. -/
def xorCipher : BlockCipher :=
  { encryptBlock := fun k b => xorBytes b (k.drop 16)
    decryptBlock := fun k b => xorBytes b (k.drop 16) }

/-- An environment without network and file system: every call to the outside
fails; the codec is the one modelled from the spec over `xorCipher`, with the
random bytes fixed. -/
def Env.offline : Env :=
  { jsonParse := fun _ => .error (GoError.new (str "unexpected end of JSON input"))
    int32OutOfRange := fun _ => -2147483648
    base64ErrorText := fun _ => str "illegal base64 data"
    AesEncrypt := fun _ data key appId =>
      ydapp.AesEncrypt xorCipher (List.replicate 16 7) data key appId
    AesDecrypt := fun s key => ydapp.AesDecrypt xorCipher s key
    requestEncode := fun _ => ([], none)
    jsonGetString := fun _ _ => ([], some (GoError.new (str "type assertion to string failed")))
    jsonGetInt64 := fun _ _ => (0, some (GoError.new (str "type assertion to int64 failed")))
    newJsonErr := fun _ => some (GoError.new (str "unexpected end of JSON input"))
    unmarshalReceivePack := fun _ => .error (GoError.new (str "unexpected end of JSON input"))
    unmarshalReceiveMsg := fun _ => .error (GoError.new (str "unexpected end of JSON input"))
    unmarshalUserInfo := fun _ => .error (GoError.new (str "unexpected end of JSON input"))
    hcPost := fun _ _ _ _ => .error (GoError.new (str "connection refused"))
    getRequestUrl := fun url _ => .ok url
    hcDo := fun _ _ => .error (GoError.new (str "connection refused"))
    readFile := fun _ _ => .error (GoError.new (str "no such file or directory"))
    mkdirAll := fun _ _ => some (GoError.new (str "permission denied"))
    writeFile := fun _ _ _ => some (GoError.new (str "permission denied"))
    filepathSplit := fun path => ([], path)
    nowUnix := fun _ => 1500000000
    multipart := fun _ _ => ([], str "multipart/form-data") }

/-- The key of `app_test.go`. -/
def testEncAesKey : GoString := str "AY2O92Lpyr4M2IOXT05NQG3eaXd72FlS/QZ1l4vGKsQ="

/-- The app id of `app_test.go`. -/
def testAppId : GoString := str "yd37D192E9F20E448192827A001A84D443"

/-- The server address of `app_test.go`. -/
def testServerAddr : GoString := str "http://localhost:7080"

/-- The value of a field of a JSON object given by its members in the order of
the text: the last member of that name, if any. -/
def objField (fields : List (GoString × JsonValue)) (k : GoString) : Option JsonValue :=
  fields.reverse.lookup k

/-- A JSON text whose parse is the object `{"errcode": 40001, "errmsg": "bad token"}`. -/
def badTokenBody : Bytes := str "\x7b\"errcode\":40001,\"errmsg\":\"bad token\"\x7d"

/-- An environment that parses `badTokenBody`. -/
def Env.badToken : Env :=
  { Env.offline with
    jsonParse := fun bs =>
      if bs = badTokenBody then
        .ok (.obj [(str "errcode", .num ((40001 : Int) : ℚ)),
          (str "errmsg", .str (str "bad token"))])
      else .error (GoError.new (str "invalid character")) }

/-- An environment in which every body parses to the JSON value `v`. -/
def Env.parsing (v : JsonValue) : Env :=
  { Env.offline with jsonParse := fun _ => .ok v }

/-- The environment `e` with another codec result: the `AppId` of every
decrypted message is replaced by `g` of the message. -/
def Env.relabel (e : Env) (g : RawMsg → GoString) : Env :=
  { e with
    AesDecrypt := fun s key =>
      match e.AesDecrypt s key with
      | .ok raw => .ok { raw with AppId := g raw }
      | .error err => .error err }

/-- An environment whose server answers every POST with status 200 and this body. -/
def Env.serving (body : Bytes) : Env :=
  { Env.offline with hcPost := fun _ _ _ _ => .ok ⟨200, str "200 OK", .ok body⟩ }

/-- A client for the key of 32 zero bytes and the app id `A1`. -/
def clientA1 : MsgApp :=
  { buin := 666666, aesKey := List.replicate 32 0, appId := str "A1", accToken := str "tok",
    serverAddr := testServerAddr, recv := some ⟨1⟩ }

/-- An envelope under the key of `clientA1` that carries the app id `OTHER`. -/
def otherEnvelope : GoString :=
  (AesEncrypt xorCipher (List.replicate 16 7) (str "file content") (List.replicate 32 0)
    (str "OTHER")).1

/-- The inner payload of the callback scenario of the specification. -/
def pkg1Payload : Bytes :=
  str "\x7b\"packageId\":\"PKG1\",\"msgType\":\"text\",\"text\":\x7b\"content\":\"hi\"\x7d\x7d"

/-- The envelope of `pkg1Payload` under the key and the app id of `clientA1`. -/
def pkg1Envelope : GoString :=
  (AesEncrypt xorCipher (List.replicate 16 7) pkg1Payload (List.replicate 32 0) (str "A1")).1

/-- The body of the callback request: the frame with `pkg1Envelope`. -/
def pkg1Body : Bytes := str "\x7b\"encrypt\":\"" ++ pkg1Envelope ++ str "\"\x7d"

/-- The message `pkg1Payload` decodes to. -/
def pkg1Msg : ReceiveMsg := { PackageId := str "PKG1", MsgType := str "text", Content := str "hi" }

/-- An environment that decodes the frame and the payload of the callback scenario. -/
def Env.callback : Env :=
  { Env.offline with
    unmarshalReceivePack := fun bs =>
      if bs = pkg1Body then .ok ⟨pkg1Envelope⟩
      else .error (GoError.new (str "invalid character"))
    unmarshalReceiveMsg := fun bs =>
      if bs = pkg1Payload then .ok pkg1Msg
      else .error (GoError.new (str "invalid character")) }

/-- The URL of an API call: the server address, the endpoint and the stored
token as the query parameter `accessToken`. -/
def MsgApp.apiUrl (m : MsgApp) (api : GoString) : GoString :=
  m.serverAddr ++ api ++ str "?accessToken=" ++ m.accToken

/-- What is claimed of a send operation that returned `res` and left the trace
`t1`: its last call to the outside is a POST to the endpoint `/cgi/msg/send`, and
whenever that POST yields status 200 with a body that `NewResponse` accepts as
`rsp`, the operation returned nil if and only if `rsp.StatusOK()`. -/
def SendOutcome (e : Env) (m : MsgApp) (res : Option GoError) (t1 : Trace) : Prop :=
  ∃ t0 body,
    t1 = t0 ++ [Event.httpPost (m.serverAddr ++ str "/cgi/msg/send" ++ str "?accessToken="
      ++ m.accToken) HttpJsonType body] ∧
    ∀ status bd rsp,
      e.hcPost t0 (m.serverAddr ++ str "/cgi/msg/send" ++ str "?accessToken=" ++ m.accToken)
        HttpJsonType body = .ok ⟨200, status, .ok bd⟩ →
      NewResponse e bd = .ok rsp →
      (res = none ↔ rsp.StatusOK = true)

/-- A body whose parse is the frame `{"errcode": 0, "errmsg": "ok"}`. -/
def okBody : Bytes := str "\x7b\"errcode\":0,\"errmsg\":\"ok\"\x7d"

/-- An environment without file system whose server answers every POST with
status 200 and the frame `okBody`. -/
def Env.okServer : Env :=
  { Env.offline with
    hcPost := fun _ _ _ _ => .ok ⟨200, str "200 OK", .ok okBody⟩
    jsonParse := fun bs =>
      if bs = okBody then
        .ok (.obj [(str "errcode", .num ((0 : Int) : ℚ)), (str "errmsg", .str (str "ok"))])
      else .error (GoError.new (str "invalid character")) }

/-- An article without media id whose image file does not exist. -/
def mpNoImage : MpNews :=
  { Title := str "title", MediaId := [], Digest := str "digest", Content := str "content",
    Url := str "http://example.com/", ShowFront := 1, Path := str "file/missing.jpg" }

/-- A link without media id whose image file does not exist. -/
def linkNoImage : ExLink :=
  { Title := str "title", Url := str "http://example.com/", Digest := str "digest",
    MediaId := [], Path := str "file/missing.jpg" }

/-- The inner payload of an answer of `/cgi/media/search`. -/
def fileInfoPayload : Bytes := str "\x7b\"name\":\"hello.txt\",\"size\":10\x7d"

/-- The envelope of `fileInfoPayload` under the key and the app id of `clientA1`. -/
def fileInfoEnvelope : GoString :=
  (AesEncrypt xorCipher (List.replicate 16 7) fileInfoPayload (List.replicate 32 0)
    (str "A1")).1

/-- A frame with `errcode` 40001 that carries `fileInfoEnvelope`. -/
def errFrameBody : Bytes :=
  str "\x7b\"errcode\":40001,\"errmsg\":\"bad token\",\"encrypt\":\"" ++ fileInfoEnvelope
    ++ str "\"\x7d"

/-- An environment whose server answers every POST with status 200 and the
frame `errFrameBody`. -/
def Env.errFrameServer : Env :=
  { Env.offline with
    hcPost := fun _ _ _ _ => .ok ⟨200, str "200 OK", .ok errFrameBody⟩
    jsonParse := fun bs =>
      if bs = errFrameBody then
        .ok (.obj [(str "errcode", .num ((40001 : Int) : ℚ)),
          (str "errmsg", .str (str "bad token")), (str "encrypt", .str fileInfoEnvelope)])
      else .error (GoError.new (str "invalid character"))
    jsonGetString := fun data key =>
      if data = fileInfoPayload ∧ key = str "name" then (str "hello.txt", none)
      else ([], some (GoError.new (str "type assertion to string failed")))
    jsonGetInt64 := fun data key =>
      if data = fileInfoPayload ∧ key = str "size" then (10, none)
      else (0, some (GoError.new (str "type assertion to int64 failed"))) }

/-- An environment whose server answers every POST with status 200 and the
frame `badTokenBody`, which has no `encrypt` field. -/
def Env.badTokenServer : Env :=
  { Env.badToken with hcPost := fun _ _ _ _ => .ok ⟨200, str "200 OK", .ok badTokenBody⟩ }

/-- The URLs of the HTTP requests of a trace, in order. -/
def postedUrls : Trace → List GoString
  | [] => []
  | Event.httpPost url _ _ :: t => url :: postedUrls t
  | Event.httpGet url :: t => url :: postedUrls t
  | _ :: t => postedUrls t

/-- The members of the frame `{"errcode": 0.5, "errmsg": "half"}`. -/
def halfFields : List (GoString × JsonValue) :=
  [(str "errcode", .num (1 / 2)), (str "errmsg", .str (str "half"))]

/-! # Theorems -/

/-! ## `NewMsgApp` -/

/-- C1: for every configuration string `s`, `NewMsgApp` makes no call to the
outside (the trace is unchanged); it returns an error, hence no client, when
`s` is not valid standard base64 or decodes to a byte string whose length is not
32; otherwise it returns the client whose key is the decoded 32 bytes. -/
theorem NewMsgApp_key_check (e : Env) (buin : Int) (appId s serverAddr : GoString)
    (t : Trace) :
    (NewMsgApp e buin appId s serverAddr t).2 = t ∧
    ((base64DecodeString s = none ∨
        ∃ key, base64DecodeString s = some key ∧ key.length ≠ 32) →
      ∃ err, (NewMsgApp e buin appId s serverAddr t).1 = .error err) ∧
    (∀ key, base64DecodeString s = some key → key.length = 32 →
      (NewMsgApp e buin appId s serverAddr t).1 =
        .ok { buin := buin, aesKey := key, appId := appId, accToken := [],
              serverAddr := serverAddr, recv := none }) := by
  refine ⟨?_, ?_, ?_⟩
  · unfold NewMsgApp
    split
    · rfl
    · split <;> rfl
  · rintro (h | ⟨key, h, hlen⟩)
    · simp [NewMsgApp, h]
    · simp [NewMsgApp, h, hlen]
  · intro key h hlen
    simp [NewMsgApp, h, hlen]

/-- The key of the test suite is accepted: it decodes to 32 bytes. -/
theorem NewMsgApp_key_check_witness :
    (NewMsgApp Env.offline 666666 testAppId testEncAesKey testServerAddr []).1 =
      .ok { buin := 666666,
            aesKey := [1, 141, 142, 247, 98, 233, 202, 190, 12, 216, 131, 151, 79, 78, 77, 64,
              109, 222, 105, 119, 123, 216, 89, 82, 253, 6, 117, 151, 139, 198, 42, 196],
            appId := testAppId, accToken := [], serverAddr := testServerAddr, recv := none } :=
  (NewMsgApp_key_check Env.offline 666666 testAppId testEncAesKey testServerAddr []).2.2 _
    (by decide) (by decide)

/-! ## `NewResponse` -/

theorem mapGet_mapSet (m : GoMap) (k0 k : GoString) (v : JsonValue) :
    mapGet (mapSet m k0 v) k = if k = k0 then some v else mapGet m k := by
  unfold mapGet mapSet
  by_cases h : k = k0
  · subst h
    simp [List.lookup_cons]
  · have h1 : (k == k0) = false := by simpa using h
    simp only [List.lookup_cons, h1, h, if_false]
    induction m with
    | nil => simp
    | cons kv rest ih =>
      obtain ⟨k1, v1⟩ := kv
      by_cases h2 : k1 = k0
      · have h3 : (k == k1) = false := by simpa [h2] using h
        simp [List.filter_cons, h2, List.lookup_cons, ih]
        rw [h1]
      · have h4 : (k1 != k0) = true := by simpa using h2
        simp only [List.filter_cons, h4, if_true, List.lookup_cons, ih]

theorem mapGet_foldl (fields : List (GoString × JsonValue)) (m0 : GoMap) (k : GoString) :
    mapGet (fields.foldl (fun m kv => mapSet m kv.1 kv.2) m0) k =
      (objField fields k).or (mapGet m0 k) := by
  induction fields generalizing m0 with
  | nil => simp [objField]
  | cons kv rest ih =>
    obtain ⟨k1, v1⟩ := kv
    rw [List.foldl_cons, ih, mapGet_mapSet]
    simp only [objField, List.reverse_cons, List.lookup_append]
    cases h : List.lookup k rest.reverse with
    | some v => simp
    | none =>
      by_cases hk : k = k1
      · subst hk
        simp [List.lookup_cons]
      · have h1 : (k == k1) = false := by simpa using hk
        simp [List.lookup_cons, h1, hk]

/-- The map `json.Unmarshal` builds from an object has the fields of the object. -/
theorem jsonUnmarshalMap_obj (e : Env) (bs : Bytes) (fields : List (GoString × JsonValue))
    (h : e.jsonParse bs = .ok (.obj fields)) :
    ∃ param, jsonUnmarshalMap e bs = (param, none) ∧ ∀ k, mapGet param k = objField fields k := by
  refine ⟨fields.foldl (fun m kv => mapSet m kv.1 kv.2) [], by simp [jsonUnmarshalMap, h], ?_⟩
  intro k
  rw [mapGet_foldl]
  simp [mapGet]

theorem float64ToInt32_intCast (e : Env) (c : Int) (h1 : -2147483648 ≤ c)
    (h2 : c ≤ 2147483647) : float64ToInt32 e (c : ℚ) = c := by
  simp [float64ToInt32, h1, h2]

/-- C2: for every `int32` code `c` and string `m`, `NewResponse` applied to a
body that is a JSON object with `errcode` = `c` and `errmsg` = `m` succeeds with
`ErrCode = c` and `ErrMsg = m`; `StatusOK()` is true iff `c = 0`, `Error()` is nil
iff `c = 0`, and when `c ≠ 0` the text of `Error()` contains the decimal code and
the message. -/
theorem NewResponse_frame (e : Env) (bs : Bytes) (fields : List (GoString × JsonValue))
    (c : Int) (m : GoString)
    (hparse : e.jsonParse bs = .ok (.obj fields))
    (hcode : objField fields (str "errcode") = some (.num (c : ℚ)))
    (hmsg : objField fields (str "errmsg") = some (.str m))
    (h1 : -2147483648 ≤ c) (h2 : c ≤ 2147483647) :
    ∃ rsp, NewResponse e bs = .ok rsp ∧ rsp.ErrCode = c ∧ rsp.ErrMsg = m ∧
      (rsp.StatusOK = true ↔ c = 0) ∧ (rsp.Error = none ↔ c = 0) ∧
      (c ≠ 0 → ∃ text, rsp.Error = some (GoError.new text) ∧
        fmtInt c <:+: text ∧ m <:+: text) := by
  obtain ⟨param, hp, hget⟩ := jsonUnmarshalMap_obj e bs fields hparse
  have hc := (hget (str "errcode")).trans hcode
  have hm := (hget (str "errmsg")).trans hmsg
  refine ⟨{ ErrCode := c, ErrMsg := m, param := param, body := bs }, ?_, rfl, rfl, ?_, ?_, ?_⟩
  · simp [NewResponse, hp, ApiResponse.GetInt32, ApiResponse.GetString, hc, hm,
      float64ToInt32_intCast e c h1 h2]
  · simp [ApiResponse.StatusOK, StatusOK]
  · simp [ApiResponse.Error, ApiResponse.StatusOK, StatusOK]
  · intro hne
    refine ⟨str "errcode: " ++ fmtInt c ++ str ", errmsg: " ++ m, ?_, ?_, ?_⟩
    · simp [ApiResponse.Error, ApiResponse.StatusOK, StatusOK, hne, ApiResponse.Status]
    · exact ⟨str "errcode: ", str ", errmsg: " ++ m, by simp⟩
    · exact ⟨str "errcode: " ++ fmtInt c ++ str ", errmsg: ", [], by simp⟩

/-- The frame `{"errcode": 40001, "errmsg": "bad token"}`. -/
theorem NewResponse_frame_witness :
    ∃ rsp, NewResponse Env.badToken badTokenBody = .ok rsp ∧ rsp.ErrCode = 40001 ∧
      rsp.ErrMsg = str "bad token" ∧
      (rsp.StatusOK = true ↔ (40001 : Int) = 0) ∧ (rsp.Error = none ↔ (40001 : Int) = 0) ∧
      ((40001 : Int) ≠ 0 → ∃ text, rsp.Error = some (GoError.new text) ∧
        fmtInt 40001 <:+: text ∧ str "bad token" <:+: text) :=
  NewResponse_frame Env.badToken badTokenBody
    [(str "errcode", .num ((40001 : Int) : ℚ)), (str "errmsg", .str (str "bad token"))]
    40001 (str "bad token") (by rfl) (by rfl) (by rfl) (by decide) (by decide)

/-- C5: for every byte string `bs`, `NewResponse bs` returns an error, and no
response, when `bs` is not JSON (the error of the parser), when it is JSON but
not an object, and when it is an object of which `errcode` or `errmsg` is absent
or `errcode` is not a number or `errmsg` is not a string. The first field at
fault decides the error, `errcode` being read first: an absent field is reported
as `ErrNoSuchField`, a field of the wrong type as a type-assertion error, which
is a different error. -/
theorem NewResponse_malformed (e : Env) (bs : Bytes) :
    (∀ err, e.jsonParse bs = .error err → NewResponse e bs = .error err) ∧
    (∀ v, e.jsonParse bs = .ok v → (∀ fields, v ≠ .obj fields) →
      ∃ err, NewResponse e bs = .error err) ∧
    (∀ fields, e.jsonParse bs = .ok (.obj fields) →
      ((objField fields (str "errcode") = none ∨ objField fields (str "errmsg") = none ∨
          (∀ x, objField fields (str "errcode") ≠ some (.num x)) ∨
          (∀ s, objField fields (str "errmsg") ≠ some (.str s))) →
        ∃ err, NewResponse e bs = .error err) ∧
      (objField fields (str "errcode") = none → NewResponse e bs = .error ErrNoSuchField) ∧
      (∀ v, objField fields (str "errcode") = some v → (∀ x, v ≠ .num x) →
        NewResponse e bs = .error (GoError.new (str "type assertion to float failed"))) ∧
      (∀ x, objField fields (str "errcode") = some (.num x) →
        objField fields (str "errmsg") = none → NewResponse e bs = .error ErrNoSuchField) ∧
      (∀ x v, objField fields (str "errcode") = some (.num x) →
        objField fields (str "errmsg") = some v → (∀ s, v ≠ .str s) →
        NewResponse e bs = .error (GoError.new (str "type assertion to string failed")))) ∧
    ErrNoSuchField ≠ GoError.new (str "type assertion to float failed") ∧
    ErrNoSuchField ≠ GoError.new (str "type assertion to string failed") := by
  have hA : ∀ fields, e.jsonParse bs = .ok (.obj fields) →
      objField fields (str "errcode") = none → NewResponse e bs = .error ErrNoSuchField := by
    intro fields hparse h
    obtain ⟨param, hp, hget⟩ := jsonUnmarshalMap_obj e bs fields hparse
    simp [NewResponse, hp, ApiResponse.GetInt32, (hget (str "errcode")).trans h]
  have hB : ∀ fields, e.jsonParse bs = .ok (.obj fields) →
      ∀ v, objField fields (str "errcode") = some v → (∀ x, v ≠ .num x) →
      NewResponse e bs = .error (GoError.new (str "type assertion to float failed")) := by
    intro fields hparse v h hv
    obtain ⟨param, hp, hget⟩ := jsonUnmarshalMap_obj e bs fields hparse
    have hc := (hget (str "errcode")).trans h
    cases v with
    | num x => exact absurd rfl (hv x)
    | _ => simp [NewResponse, hp, ApiResponse.GetInt32, hc]
  have hC : ∀ fields, e.jsonParse bs = .ok (.obj fields) →
      ∀ x, objField fields (str "errcode") = some (.num x) →
      objField fields (str "errmsg") = none → NewResponse e bs = .error ErrNoSuchField := by
    intro fields hparse x h hm
    obtain ⟨param, hp, hget⟩ := jsonUnmarshalMap_obj e bs fields hparse
    simp [NewResponse, hp, ApiResponse.GetInt32, ApiResponse.GetString,
      (hget (str "errcode")).trans h, (hget (str "errmsg")).trans hm]
  have hD : ∀ fields, e.jsonParse bs = .ok (.obj fields) →
      ∀ x v, objField fields (str "errcode") = some (.num x) →
      objField fields (str "errmsg") = some v → (∀ s, v ≠ .str s) →
      NewResponse e bs = .error (GoError.new (str "type assertion to string failed")) := by
    intro fields hparse x v h hm hv
    obtain ⟨param, hp, hget⟩ := jsonUnmarshalMap_obj e bs fields hparse
    have hc := (hget (str "errcode")).trans h
    have hs := (hget (str "errmsg")).trans hm
    cases v with
    | str s => exact absurd rfl (hv s)
    | _ => simp [NewResponse, hp, ApiResponse.GetInt32, ApiResponse.GetString, hc, hs]
  refine ⟨?_, ?_, ?_, by decide, by decide⟩
  · intro err h
    simp [NewResponse, jsonUnmarshalMap, h]
  · intro v h hv
    cases v with
    | obj fields => exact absurd rfl (hv fields)
    | null =>
      exact ⟨ErrNoSuchField, by
        simp [NewResponse, jsonUnmarshalMap, h, ApiResponse.GetInt32, mapGet]⟩
    | _ => simp [NewResponse, jsonUnmarshalMap, h]
  · intro fields hparse
    refine ⟨?_, hA fields hparse, hB fields hparse, hC fields hparse, hD fields hparse⟩
    intro hbad
    cases hcode : objField fields (str "errcode") with
    | none => exact ⟨_, hA fields hparse hcode⟩
    | some v =>
      by_cases hnum : ∃ x, v = .num x
      · obtain ⟨x, rfl⟩ := hnum
        cases hmsg : objField fields (str "errmsg") with
        | none => exact ⟨_, hC fields hparse x hcode hmsg⟩
        | some w =>
          by_cases hstr : ∃ s, w = .str s
          · obtain ⟨s, rfl⟩ := hstr
            rcases hbad with h | h | h | h
            · simp [hcode] at h
            · simp [hmsg] at h
            · exact absurd hcode (h x)
            · exact absurd hmsg (h s)
          · exact ⟨_, hD fields hparse x w hcode hmsg (fun s hs => hstr ⟨s, hs⟩)⟩
      · exact ⟨_, hB fields hparse v hcode (fun x hx => hnum ⟨x, hx⟩)⟩

/-- The object `{"errcode": 0}` has no `errmsg`: `ErrNoSuchField`. -/
theorem NewResponse_malformed_witness :
    NewResponse (Env.parsing (.obj [(str "errcode", .num 0)])) [] = .error ErrNoSuchField :=
  (((NewResponse_malformed (Env.parsing (.obj [(str "errcode", .num 0)])) []).2.2.1
    [(str "errcode", .num 0)] rfl).2.2.2.1) 0 (by rfl) (by rfl)

/-! ## The envelope codec -/

theorem UInt8_ofNat_toNat (a : UInt8) : UInt8.ofNat a.toNat = a := by
  cases a with
  | mk v => simp [UInt8.ofNat, UInt8.toNat]

theorem UInt8_toNat_ofNat (n : Nat) (h : n < 256) : (UInt8.ofNat n).toNat = n := by
  simp only [UInt8.ofNat, UInt8.toNat, BitVec.toNat_ofNat]
  omega

theorem UInt8_xor_cancel (x y : UInt8) : (x ^^^ y) ^^^ y = x := by
  cases x with
  | mk v =>
    cases y with
    | mk w =>
      show UInt8.xor (UInt8.xor _ _) _ = _
      simp only [UInt8.xor]
      congr 1
      rw [BitVec.xor_assoc, BitVec.xor_self, BitVec.xor_zero]

theorem b64val_b64char : ∀ n, n < 64 → b64val (b64char n) = some n := by decide

theorem b64char_not_newline : ∀ n, n < 64 →
    ((b64char n != 10 && b64char n != 13) = true) := by decide

theorem b64val_pad : b64val b64pad = none := by decide

theorem base64_filter_encode (bs : Bytes) :
    (base64EncodeToString bs).filter (fun c => c != 10 && c != 13) = base64EncodeToString bs := by
  induction bs using base64EncodeToString.induct with
  | case1 a b c rest ih =>
    have ha := UInt8.toNat_lt a
    have hb := UInt8.toNat_lt b
    have hc := UInt8.toNat_lt c
    simp only [base64EncodeToString, List.filter_cons, ih]
    rw [b64char_not_newline _ (by omega), b64char_not_newline _ (by omega),
      b64char_not_newline _ (by omega), b64char_not_newline _ (by omega)]
    simp
  | case2 a b =>
    have ha := UInt8.toNat_lt a
    have hb := UInt8.toNat_lt b
    simp only [base64EncodeToString, List.filter_cons]
    rw [b64char_not_newline _ (by omega), b64char_not_newline _ (by omega),
      b64char_not_newline _ (by omega)]
    simp [b64pad]
  | case3 a =>
    have ha := UInt8.toNat_lt a
    simp only [base64EncodeToString, List.filter_cons]
    rw [b64char_not_newline _ (by omega), b64char_not_newline _ (by omega)]
    simp [b64pad]
  | case4 => rfl

theorem b64decodeQuanta_encode (bs : Bytes) :
    b64decodeQuanta (base64EncodeToString bs) = some bs := by
  induction bs using base64EncodeToString.induct with
  | case1 a b c rest ih =>
    have ha := UInt8.toNat_lt a
    have hb := UInt8.toNat_lt b
    have hc := UInt8.toNat_lt c
    simp only [base64EncodeToString, b64decodeQuanta, ih]
    rw [b64val_b64char _ (by omega), b64val_b64char _ (by omega),
      b64val_b64char _ (by omega), b64val_b64char _ (by omega)]
    simp only [Option.some.injEq, List.cons.injEq, and_true]
    refine ⟨?_, ?_, ?_⟩
    · conv_rhs => rw [← UInt8_ofNat_toNat a]
      congr 1
      omega
    · conv_rhs => rw [← UInt8_ofNat_toNat b]
      congr 1
      omega
    · conv_rhs => rw [← UInt8_ofNat_toNat c]
      congr 1
      omega
  | case2 a b =>
    have ha := UInt8.toNat_lt a
    have hb := UInt8.toNat_lt b
    simp only [base64EncodeToString, b64decodeQuanta]
    rw [b64val_b64char _ (by omega), b64val_b64char _ (by omega),
      b64val_b64char _ (by omega), b64val_pad]
    simp only [and_self, if_true, Option.some.injEq, List.cons.injEq, and_true]
    refine ⟨?_, ?_⟩
    · conv_rhs => rw [← UInt8_ofNat_toNat a]
      congr 1
      omega
    · conv_rhs => rw [← UInt8_ofNat_toNat b]
      congr 1
      omega
  | case3 a =>
    have ha := UInt8.toNat_lt a
    simp only [base64EncodeToString, b64decodeQuanta]
    rw [b64val_b64char _ (by omega), b64val_b64char _ (by omega), b64val_pad]
    simp only [and_self, if_true, Option.some.injEq, List.cons.injEq, and_true]
    conv_rhs => rw [← UInt8_ofNat_toNat a]
    congr 1
    omega
  | case4 => rfl

/-- Base64 round trip: decoding the encoding of a byte string gives it back. -/
theorem base64_decode_encode (bs : Bytes) :
    base64DecodeString (base64EncodeToString bs) = some bs := by
  unfold base64DecodeString
  rw [base64_filter_encode, b64decodeQuanta_encode]

theorem xorBytes_length (a b : Bytes) (h : a.length = b.length) :
    (xorBytes a b).length = a.length := by
  simp [xorBytes, h]

theorem xorBytes_cancel (a b : Bytes) (h : a.length = b.length) :
    xorBytes (xorBytes a b) b = a := by
  induction a generalizing b with
  | nil => simp [xorBytes]
  | cons x xs ih =>
    cases b with
    | nil => simp at h
    | cons y ys =>
      simp only [List.length_cons, Nat.add_right_cancel_iff] at h
      have := ih ys h
      simp only [xorBytes] at this
      simp [xorBytes, UInt8_xor_cancel, this]

theorem cbcEncryptBlocks_length (c : BlockCipher) (key : Bytes) (hc : c.Sound key)
    (n : Nat) (prev data : Bytes) (hp : prev.length = 16) (hd : data.length = 16 * n) :
    (cbcEncryptBlocks c key n prev data).length = 16 * n := by
  induction n generalizing prev data with
  | zero => simp [cbcEncryptBlocks]
  | succ n ih =>
    have hx : (xorBytes (data.take 16) prev).length = 16 := by
      rw [xorBytes_length _ _ (by simp [hp, hd])]
      simp [hd]
    simp only [cbcEncryptBlocks, List.length_append]
    rw [(hc _ hx).1, ih _ _ (hc _ hx).1 (by simp [hd]; omega)]
    omega

theorem cbcDecrypt_cbcEncrypt (c : BlockCipher) (key : Bytes) (hc : c.Sound key)
    (n : Nat) (prev data : Bytes) (hp : prev.length = 16) (hd : data.length = 16 * n) :
    cbcDecryptBlocks c key n prev (cbcEncryptBlocks c key n prev data) = data := by
  induction n generalizing prev data with
  | zero =>
    have : data = [] := List.eq_nil_of_length_eq_zero (by simpa using hd)
    simp [cbcDecryptBlocks, this]
  | succ n ih =>
    have ht : (data.take 16).length = 16 := by simp [hd]
    have hx : (xorBytes (data.take 16) prev).length = 16 := by
      rw [xorBytes_length _ _ (by rw [ht, hp]), ht]
    obtain ⟨hl, hinv⟩ := hc _ hx
    simp only [cbcEncryptBlocks, cbcDecryptBlocks]
    rw [List.take_left' hl, List.drop_left' hl, hinv,
      xorBytes_cancel _ _ (by rw [ht, hp]), ih _ _ hl (by simp [hd]; omega)]
    exact List.take_append_drop 16 data

theorem pkcs7Pad_length (buf : Bytes) :
    (pkcs7Pad buf).length = 16 * (buf.length / 16 + 1) := by
  simp only [pkcs7Pad, List.length_append, List.length_replicate]
  omega

theorem pkcs7Unpad_pkcs7Pad (buf : Bytes) : pkcs7Unpad (pkcs7Pad buf) = some buf := by
  have hn1 : 1 ≤ 16 - buf.length % 16 := by omega
  have hn2 : 16 - buf.length % 16 ≤ 16 := by omega
  generalize hn : 16 - buf.length % 16 = n at hn1 hn2
  have hb : (UInt8.ofNat n).toNat = n := UInt8_toNat_ofNat n (by omega)
  have hlast : (buf ++ List.replicate n (UInt8.ofNat n)).getLast? = some (UInt8.ofNat n) := by
    obtain ⟨k, rfl⟩ : ∃ k, n = k + 1 := ⟨n - 1, by omega⟩
    rw [List.replicate_succ', ← List.append_assoc, List.getLast?_append]
    simp
  simp only [pkcs7Unpad, pkcs7Pad, hn, hlast, hb, List.length_append, List.length_replicate]
  have h1 : buf.length + n - n = buf.length := by omega
  rw [h1, List.drop_left, List.take_left]
  simp [hn1, hn2]

theorem getUint32BE_putUint32BE (n : Nat) (rest : Bytes) :
    getUint32BE (putUint32BE n ++ rest) = n % 4294967296 := by
  simp only [putUint32BE, getUint32BE, List.cons_append, List.nil_append]
  rw [UInt8_toNat_ofNat _ (by omega), UInt8_toNat_ofNat _ (by omega),
    UInt8_toNat_ofNat _ (by omega), UInt8_toNat_ofNat _ (by omega)]
  omega

theorem putUint32BE_length (n : Nat) : (putUint32BE n).length = 4 := rfl

/-- The round trip of the codec for a payload whose length fits the 4-byte
length field: the payload and the app id come back, and `Length` is the `int32`
conversion of the length. -/
theorem AesDecrypt_AesEncrypt_uint32 (c : BlockCipher) (nonce P K : Bytes) (A : GoString)
    (hK : K.length = 32) (hc : c.Sound K) (hn : nonce.length = 16)
    (hP : P.length < 4294967296) :
    (AesEncrypt c nonce P K A).2 = none ∧
    AesDecrypt c (AesEncrypt c nonce P K A).1 K =
      .ok { Data := P, Length := toInt32 P.length, AppId := A } := by
  have hiv : (K.take 16).length = 16 := by simp [hK]
  have hbuf : ∀ buf : Bytes, (pkcs7Pad buf).length = 16 * ((pkcs7Pad buf).length / 16) := by
    intro buf
    rw [pkcs7Pad_length]
    omega
  refine ⟨by simp [AesEncrypt, hK], ?_⟩
  simp only [AesEncrypt, AesDecrypt, hK, ne_eq, not_true_eq_false, if_false,
    base64_decode_encode]
  generalize hb : nonce ++ putUint32BE P.length ++ P ++ A = inner
  have hct := cbcEncryptBlocks_length c K hc ((pkcs7Pad inner).length / 16) (K.take 16)
    (pkcs7Pad inner) hiv (hbuf inner)
  have hmod : (cbcEncryptBlocks c K ((pkcs7Pad inner).length / 16) (K.take 16)
      (pkcs7Pad inner)).length % 16 = 0 := by rw [hct]; omega
  have hdiv : (cbcEncryptBlocks c K ((pkcs7Pad inner).length / 16) (K.take 16)
      (pkcs7Pad inner)).length / 16 = (pkcs7Pad inner).length / 16 := by rw [hct]; omega
  rw [if_neg (by rw [hmod]; simp), hdiv,
    cbcDecrypt_cbcEncrypt c K hc _ _ _ hiv (hbuf inner), pkcs7Unpad_pkcs7Pad]
  have hlen : inner.length = 20 + P.length + A.length := by
    rw [← hb]
    simp [hn, putUint32BE_length]
    omega
  have hd16 : inner.drop 16 = putUint32BE P.length ++ (P ++ A) := by
    rw [← hb, List.append_assoc, List.append_assoc, List.drop_left' hn]
  have hd20 : inner.drop 20 = P ++ A := by
    have : inner.drop 20 = (inner.drop 16).drop 4 := by rw [List.drop_drop]
    rw [this, hd16, List.drop_left' (putUint32BE_length _)]
  simp only [hd16, hd20, getUint32BE_putUint32BE, Nat.mod_eq_of_lt hP]
  rw [if_neg (by omega), if_neg (by simp)]
  simp

theorem xorCipher_sound (K : Bytes) (hK : K.length = 32) : xorCipher.Sound K := by
  intro b hb
  have hk : b.length = (K.drop 16).length := by simp [hK, hb]
  exact ⟨by simp [xorCipher, xorBytes_length _ _ hk, hb],
    by simp [xorCipher, xorBytes_cancel _ _ hk]⟩

theorem toInt32_of_lt (n : Nat) (h : n < 2147483648) : toInt32 (n : Int) = n := by
  unfold toInt32
  omega

/-- C3 (amended): for every payload `P` of fewer than 2^31 bytes, every 32-byte
key and every app id, whatever the 16 random bytes are, `MsgApp.encrypt`
succeeds and `MsgApp.decrypt` of its result succeeds with `Data = P`,
`Length = len(P)` and `AppId` the app id; the same holds of
`AesDecrypt(AesEncrypt(P, K, A), K)`. The codec is the one modelled from the
spec, over a block cipher that decrypts what it encrypts. -/
theorem envelope_round_trip (e : Env) (c : BlockCipher) (nonce : Trace → Bytes) (m : MsgApp)
    (P : Bytes) (t : Trace)
    (hK : m.aesKey.length = 32) (hc : c.Sound m.aesKey) (hn : (nonce t).length = 16)
    (hP : P.length < 2147483648) :
    (m.encrypt (e.withCodec c nonce) P t).1.2 = none ∧
    m.decrypt (e.withCodec c nonce) (m.encrypt (e.withCodec c nonce) P t).1.1 =
      .ok { Data := P, Length := P.length, AppId := m.appId } ∧
    AesDecrypt c (AesEncrypt c (nonce t) P m.aesKey m.appId).1 m.aesKey =
      .ok { Data := P, Length := P.length, AppId := m.appId } := by
  obtain ⟨h1, h2⟩ := AesDecrypt_AesEncrypt_uint32 c (nonce t) P m.aesKey m.appId hK hc hn
    (by omega)
  rw [toInt32_of_lt _ hP] at h2
  exact ⟨h1, h2, h2⟩

/-- Scenario of the specification: key of 32 zero bytes, app id `A1`, payload
`hello`. -/
theorem envelope_round_trip_witness :
    (MsgApp.encrypt (Env.offline.withCodec xorCipher (fun _ => List.replicate 16 7))
      ⟨1, List.replicate 32 0, str "A1", [], [], none⟩ (str "hello") []).1.2 = none ∧
    MsgApp.decrypt (Env.offline.withCodec xorCipher (fun _ => List.replicate 16 7))
      ⟨1, List.replicate 32 0, str "A1", [], [], none⟩
      (MsgApp.encrypt (Env.offline.withCodec xorCipher (fun _ => List.replicate 16 7))
        ⟨1, List.replicate 32 0, str "A1", [], [], none⟩ (str "hello") []).1.1 =
      .ok { Data := str "hello", Length := ((str "hello").length : Nat), AppId := str "A1" } ∧
    AesDecrypt xorCipher
      (AesEncrypt xorCipher (List.replicate 16 7) (str "hello") (List.replicate 32 0)
        (str "A1")).1 (List.replicate 32 0) =
      .ok { Data := str "hello", Length := ((str "hello").length : Nat), AppId := str "A1" } :=
  envelope_round_trip Env.offline xorCipher (fun _ => List.replicate 16 7)
    ⟨1, List.replicate 32 0, str "A1", [], [], none⟩ (str "hello") []
    (by decide) (xorCipher_sound _ (by decide)) (by decide) (by decide)

/-- C3 as stated fails for a payload of 2^31 bytes: the decryption succeeds, but
`Length`, an `int32`, is not the length of the payload. -/
theorem envelope_round_trip_counterexample :
    ∃ raw, AesDecrypt xorCipher
        (AesEncrypt xorCipher (List.replicate 16 7) (List.replicate 2147483648 0)
          (List.replicate 32 0) (str "A1")).1 (List.replicate 32 0) = .ok raw ∧
      raw.Length = -2147483648 ∧
      raw.Length ≠ ((List.replicate 2147483648 (0 : UInt8)).length : Int) := by
  have h := (AesDecrypt_AesEncrypt_uint32 xorCipher (List.replicate 16 7)
    (List.replicate 2147483648 0) (List.replicate 32 0) (str "A1")
    (List.length_replicate _ _) (xorCipher_sound _ (List.length_replicate _ _))
    (List.length_replicate _ _) (by rw [List.length_replicate]; omega)).2
  refine ⟨_, h, ?_, ?_⟩
  · show toInt32 _ = _
    rw [List.length_replicate]
    unfold toInt32
    omega
  · show toInt32 _ ≠ _
    rw [List.length_replicate]
    unfold toInt32
    omega

/-! ## The app id of a decrypted envelope -/

/-- C4 as stated fails: `download` of a client configured for `A1` returns the
payload of an envelope that decrypts to the app id `OTHER`. -/
theorem download_appId_counterexample :
    ∃ raw, clientA1.decrypt (Env.serving otherEnvelope) otherEnvelope = .ok raw ∧
      raw.AppId = str "OTHER" ∧ raw.AppId ≠ clientA1.appId ∧
      (clientA1.download (Env.serving otherEnvelope) (str "media1") []).1 = .ok raw.Data ∧
      raw.Data = str "file content" :=
  ⟨⟨str "file content", 12, str "OTHER"⟩, by rfl, by rfl, by decide, by rfl, by rfl⟩

theorem NewResponse_relabel (e : Env) (g : RawMsg → GoString) (bs : Bytes) :
    NewResponse (e.relabel g) bs = NewResponse e bs := rfl

theorem post_relabel (e : Env) (g : RawMsg → GoString) (m : MsgApp) (api ct : GoString)
    (req : Bytes) (t : Trace) : m.post (e.relabel g) api ct req t = m.post e api ct req t := rfl

theorem get_relabel (e : Env) (g : RawMsg → GoString) (m : MsgApp) (api : GoString)
    (q : List (GoString × GoString)) (t : Trace) :
    m.get (e.relabel g) api q t = m.get e api q t := rfl

theorem getFile_relabel (e : Env) (g : RawMsg → GoString) (m : MsgApp) (req : Bytes)
    (t : Trace) : m.getFile (e.relabel g) req t = m.getFile e req t := rfl

theorem encrypt_relabel (e : Env) (g : RawMsg → GoString) (m : MsgApp) (data : Bytes)
    (t : Trace) : m.encrypt (e.relabel g) data t = m.encrypt e data t := rfl

theorem decrypt_relabel (e : Env) (g : RawMsg → GoString) (m : MsgApp) (s : GoString) :
    m.decrypt (e.relabel g) s =
      match m.decrypt e s with
      | .ok raw => .ok { raw with AppId := g raw }
      | .error err => .error err := rfl

theorem relabel_fields (e : Env) (g : RawMsg → GoString) :
    (e.relabel g).nowUnix = e.nowUnix ∧ (e.relabel g).jsonGetString = e.jsonGetString ∧
    (e.relabel g).jsonGetInt64 = e.jsonGetInt64 ∧ (e.relabel g).newJsonErr = e.newJsonErr ∧
    (e.relabel g).requestEncode = e.requestEncode ∧ (e.relabel g).multipart = e.multipart ∧
    (e.relabel g).unmarshalReceivePack = e.unmarshalReceivePack ∧
    (e.relabel g).unmarshalReceiveMsg = e.unmarshalReceiveMsg ∧
    (e.relabel g).unmarshalUserInfo = e.unmarshalUserInfo :=
  ⟨rfl, rfl, rfl, rfl, rfl, rfl, rfl, rfl, rfl⟩

theorem frame_relabel (e : Env) (g : RawMsg → GoString) (m : MsgApp) (enc : GoString) :
    m.frame (e.relabel g) enc = m.frame e enc := rfl

theorem GetToken_relabel (e : Env) (g : RawMsg → GoString) (m : MsgApp) (t : Trace) :
    m.GetToken (e.relabel g) t = m.GetToken e t := by
  unfold MsgApp.GetToken
  simp only [encrypt_relabel, post_relabel, decrypt_relabel, frame_relabel]
  obtain ⟨h1, h2, h3, h4, h5, h6, h7, h8, h9⟩ := relabel_fields e g
  simp only [h1, h2, h3, h4, h5, h6, h7, h8, h9]
  split
  · rfl
  · split
    · rfl
    · split
      · rfl
      · split
        · rfl
        · rename_i enc _
          cases hd : m.decrypt e enc with
          | error err => rfl
          | ok raw => rfl
theorem upload_relabel (e : Env) (g : RawMsg → GoString) (m : MsgApp) (ftype fname : GoString)
    (data : Bytes) (t : Trace) :
    m.upload (e.relabel g) ftype fname data t = m.upload e ftype fname data t := by
  unfold MsgApp.upload
  simp only [encrypt_relabel, post_relabel, decrypt_relabel, frame_relabel]
  obtain ⟨h1, h2, h3, h4, h5, h6, h7, h8, h9⟩ := relabel_fields e g
  simp only [h1, h2, h3, h4, h5, h6, h7, h8, h9]
  split
  · rfl
  · split
    · rfl
    · split
      · rfl
      · rename_i enc _
        cases hd : m.decrypt e enc with
        | error err => rfl
        | ok raw => rfl

theorem download_relabel (e : Env) (g : RawMsg → GoString) (m : MsgApp) (mediaId : GoString)
    (t : Trace) : m.download (e.relabel g) mediaId t = m.download e mediaId t := by
  unfold MsgApp.download
  simp only [encrypt_relabel, getFile_relabel, decrypt_relabel, frame_relabel]
  obtain ⟨h1, h2, h3, h4, h5, h6, h7, h8, h9⟩ := relabel_fields e g
  simp only [h1, h2, h3, h4, h5, h6, h7, h8, h9]
  split
  · rfl
  · rename_i bd _ _
    cases hd : m.decrypt e bd with
    | error err => rfl
    | ok raw => rfl

theorem SearchFile_relabel (e : Env) (g : RawMsg → GoString) (m : MsgApp) (mediaId : GoString)
    (t : Trace) : m.SearchFile (e.relabel g) mediaId t = m.SearchFile e mediaId t := by
  unfold MsgApp.SearchFile
  simp only [encrypt_relabel, post_relabel, decrypt_relabel, frame_relabel]
  obtain ⟨h1, h2, h3, h4, h5, h6, h7, h8, h9⟩ := relabel_fields e g
  simp only [h1, h2, h3, h4, h5, h6, h7, h8, h9]
  split
  · rfl
  · split
    · rfl
    · rename_i enc _
      cases hd : m.decrypt e enc with
      | error err => rfl
      | ok raw => rfl

theorem GetUserInfo_relabel (e : Env) (g : RawMsg → GoString) (m : MsgApp) (user : GoString)
    (t : Trace) : m.GetUserInfo (e.relabel g) user t = m.GetUserInfo e user t := by
  unfold MsgApp.GetUserInfo
  simp only [get_relabel, decrypt_relabel]
  obtain ⟨h1, h2, h3, h4, h5, h6, h7, h8, h9⟩ := relabel_fields e g
  simp only [h1, h2, h3, h4, h5, h6, h7, h8, h9]
  split
  · rfl
  · split
    · rfl
    · split
      · rfl
      · rename_i enc _
        cases hd : m.decrypt e enc with
        | error err => rfl
        | ok raw => rfl

theorem Receive_relabel (e : Env) (g : RawMsg → GoString) (m : MsgApp) (req : HttpRequest)
    (t : Trace) : m.Receive (e.relabel g) req t = m.Receive e req t := by
  unfold MsgApp.Receive
  simp only [decrypt_relabel]
  obtain ⟨h1, h2, h3, h4, h5, h6, h7, h8, h9⟩ := relabel_fields e g
  simp only [h1, h2, h3, h4, h5, h6, h7, h8, h9]
  split
  · rfl
  · rename_i p _
    cases hd : m.decrypt e p.Encrypt with
    | error err => rfl
    | ok raw => rfl

/-- C4 (amended): none of the operations that decrypt an envelope (`GetToken`,
`upload`, `download`, `SearchFile`, `GetUserInfo`, `Receive`) looks at the
`AppId` of the decrypted `RawMsg`: whatever app id the decrypted messages carry
(`g` replaces it at will), the values returned, the token stored and the trace,
with the body written and the handler dispatched by `Receive`, are the same. -/
theorem appId_not_compared (e : Env) (g : RawMsg → GoString) (m : MsgApp) (t : Trace) :
    m.GetToken (e.relabel g) t = m.GetToken e t ∧
    (∀ ftype fname data, m.upload (e.relabel g) ftype fname data t
      = m.upload e ftype fname data t) ∧
    (∀ mediaId, m.download (e.relabel g) mediaId t = m.download e mediaId t) ∧
    (∀ mediaId, m.SearchFile (e.relabel g) mediaId t = m.SearchFile e mediaId t) ∧
    (∀ user, m.GetUserInfo (e.relabel g) user t = m.GetUserInfo e user t) ∧
    (∀ req, m.Receive (e.relabel g) req t = m.Receive e req t) :=
  ⟨GetToken_relabel e g m t, fun _ _ _ => upload_relabel e g m _ _ _ t,
    fun _ => download_relabel e g m _ t, fun _ => SearchFile_relabel e g m _ t,
    fun _ => GetUserInfo_relabel e g m _ t, fun _ => Receive_relabel e g m _ t⟩

/-! ## `Receive` -/

/-- C8: for every callback request handled by `Receive`: when the outer frame
decodes, its `encrypt` field decrypts and the inner payload decodes, `Receive`
dispatches the registered handler (if any) exactly once with the decoded message
and then writes exactly the `packageId` of the message to the response; when one
of the three steps fails, nothing is written and no handler is dispatched (the
trace is unchanged). `ServeHTTP` hands a request for the callback path to
`Receive`. -/
theorem Receive_ack (e : Env) (m : MsgApp) (req : HttpRequest) (t : Trace) :
    (∀ p raw msg, e.unmarshalReceivePack req.Body = .ok p →
      m.decrypt e p.Encrypt = .ok raw → e.unmarshalReceiveMsg raw.Data = .ok msg →
      m.Receive e req t =
        t ++ (match m.recv with
              | some r => [Event.goReceive r msg]
              | none => []) ++ [Event.respWrite msg.PackageId]) ∧
    (((∃ err, e.unmarshalReceivePack req.Body = .error err) ∨
      (∃ p err, e.unmarshalReceivePack req.Body = .ok p ∧
        m.decrypt e p.Encrypt = .error err) ∨
      (∃ p raw err, e.unmarshalReceivePack req.Body = .ok p ∧
        m.decrypt e p.Encrypt = .ok raw ∧ e.unmarshalReceiveMsg raw.Data = .error err)) →
      m.Receive e req t = t) ∧
    (req.Path = CallbackUrl → m.ServeHTTP e req t = m.Receive e req t) := by
  refine ⟨?_, ?_, ?_⟩
  · intro p raw msg h1 h2 h3
    cases hr : m.recv <;> simp [MsgApp.Receive, h1, h2, h3, hr]
  · rintro (⟨err, h1⟩ | ⟨p, err, h1, h2⟩ | ⟨p, raw, err, h1, h2, h3⟩)
    · simp [MsgApp.Receive, h1]
    · simp [MsgApp.Receive, h1, h2]
    · simp [MsgApp.Receive, h1, h2, h3]
  · intro h
    simp [MsgApp.ServeHTTP, h]

set_option maxRecDepth 100000 in
/-- The callback scenario of the specification: the body written is `PKG1` and
the handler is dispatched once with the decoded message. -/
theorem Receive_ack_witness :
    clientA1.Receive Env.callback ⟨CallbackUrl, pkg1Body⟩ [] =
      [] ++ (match clientA1.recv with
             | some r => [Event.goReceive r pkg1Msg]
             | none => []) ++ [Event.respWrite pkg1Msg.PackageId] :=
  (Receive_ack Env.callback clientA1 ⟨CallbackUrl, pkg1Body⟩ []).1
    ⟨pkg1Envelope⟩ ⟨pkg1Payload, 61, str "A1"⟩ pkg1Msg (by decide) (by decide) (by decide)

/-! ## The send operations -/

theorem Error_eq_none_iff (rsp : ApiResponse) : rsp.Error = none ↔ rsp.StatusOK = true := by
  unfold ApiResponse.Error
  split <;> simp_all

/-- The result of `post` when the POST yields status 200 and a body that
`NewResponse` accepts. -/
theorem post_ok (e : Env) (m : MsgApp) (api ct : GoString) (req : Bytes) (t : Trace)
    (status : GoString) (bd : Bytes) (rsp : ApiResponse)
    (h1 : e.hcPost t (m.serverAddr ++ api ++ str "?accessToken=" ++ m.accToken) ct req
      = .ok ⟨200, status, .ok bd⟩)
    (h2 : NewResponse e bd = .ok rsp) :
    (m.post e api ct req t).1 = .ok rsp := by
  unfold MsgApp.post
  simp only [h1, h2]
  simp

theorem post_trace (e : Env) (m : MsgApp) (api ct : GoString) (req : Bytes) (t : Trace) :
    (m.post e api ct req t).2 =
      t ++ [Event.httpPost (m.serverAddr ++ api ++ str "?accessToken=" ++ m.accToken) ct req] := by
  unfold MsgApp.post
  simp only []
  split
  · rfl
  · split
    · rfl
    · split
      · rfl
      · split <;> rfl

/-- The common tail of the send operations: the trace ends with the POST to
`/cgi/msg/send`, and the frame of a good answer is what `postMsg` returns. -/
theorem postMsg_outcome (e : Env) (m : MsgApp) (msg : List (GoString × JsonValue)) (t : Trace) :
    ∃ t0 body,
      (m.postMsg e msg t).2 = t0 ++ [Event.httpPost (m.serverAddr ++ str "/cgi/msg/send"
        ++ str "?accessToken=" ++ m.accToken) HttpJsonType body] ∧
      ∀ status bd rsp,
        e.hcPost t0 (m.serverAddr ++ str "/cgi/msg/send" ++ str "?accessToken=" ++ m.accToken)
          HttpJsonType body = .ok ⟨200, status, .ok bd⟩ →
        NewResponse e bd = .ok rsp →
        (m.postMsg e msg t).1 = .ok rsp := by
  refine ⟨(m.encrypt e (e.requestEncode msg).1 t).2,
    m.frame e (m.encrypt e (e.requestEncode msg).1 t).1.1, ?_, ?_⟩
  · exact post_trace e m API_SEND_MSG HttpJsonType _ _
  · intro status bd rsp h1 h2
    exact post_ok e m API_SEND_MSG HttpJsonType _ _ status bd rsp h1 h2

theorem SendOutcome_of_postMsg (e : Env) (m : MsgApp) (msg : List (GoString × JsonValue))
    (t : Trace) (res : Option GoError) (t1 : Trace)
    (ht : t1 = (m.postMsg e msg t).2)
    (h : ∀ rsp, (m.postMsg e msg t).1 = .ok rsp → (res = none ↔ rsp.StatusOK = true)) :
    SendOutcome e m res t1 := by
  obtain ⟨t0, body, ht0, hok⟩ := postMsg_outcome e m msg t
  exact ⟨t0, body, ht.trans ht0, fun status bd rsp h1 h2 => h rsp (hok status bd rsp h1 h2)⟩

theorem SendTxtMsg_outcome (e : Env) (m : MsgApp) (toUser toDept content : GoString)
    (t : Trace) :
    SendOutcome e m (m.SendTxtMsg e toUser toDept content t).1
      (m.SendTxtMsg e toUser toDept content t).2 := by
  refine SendOutcome_of_postMsg e m
    [(str "toUser", JsonValue.str toUser), (str "toDept", .str toDept),
      (str "msgType", .str MsgTypeText), (str "text", .obj [(str "content", .str content)])]
    t _ _ ?_ ?_
  · unfold MsgApp.SendTxtMsg
    simp only []
    split
    · simp_all
    · split <;> simp_all
  · intro rsp h
    unfold MsgApp.SendTxtMsg
    simp only []
    split
    · simp_all
    · rename_i rsp1 t1 heq
      have : rsp1 = rsp := by simp_all
      subst this
      by_cases hs : rsp1.StatusOK = true
      · simp [hs]
      · simp [hs, Error_eq_none_iff]

theorem SendImgMsg_outcome (e : Env) (m : MsgApp) (toUser toDept mediaId : GoString)
    (t : Trace) :
    SendOutcome e m (m.SendImgMsg e toUser toDept mediaId t).1
      (m.SendImgMsg e toUser toDept mediaId t).2 := by
  refine SendOutcome_of_postMsg e m
    [(str "toUser", JsonValue.str toUser), (str "toDept", .str toDept),
      (str "msgType", .str MsgTypeImage), (str "image", .obj [(str "media_id", .str mediaId)])]
    t _ _ ?_ ?_
  · unfold MsgApp.SendImgMsg
    simp only []
    split <;> simp_all
  · intro rsp h
    unfold MsgApp.SendImgMsg
    simp only []
    split
    · simp_all
    · rename_i rsp1 t1 heq
      have : rsp1 = rsp := by simp_all
      subst this
      exact Error_eq_none_iff rsp1

theorem SendFileMsg_outcome (e : Env) (m : MsgApp) (toUser toDept mediaId : GoString)
    (t : Trace) :
    SendOutcome e m (m.SendFileMsg e toUser toDept mediaId t).1
      (m.SendFileMsg e toUser toDept mediaId t).2 := by
  refine SendOutcome_of_postMsg e m
    [(str "toUser", JsonValue.str toUser), (str "toDept", .str toDept),
      (str "msgType", .str MsgTypeFile), (str "file", .obj [(str "media_id", .str mediaId)])]
    t _ _ ?_ ?_
  · unfold MsgApp.SendFileMsg
    simp only []
    split <;> simp_all
  · intro rsp h
    unfold MsgApp.SendFileMsg
    simp only []
    split
    · simp_all
    · rename_i rsp1 t1 heq
      have : rsp1 = rsp := by simp_all
      subst this
      exact Error_eq_none_iff rsp1

theorem SendMpNewsMsg_outcome (e : Env) (m : MsgApp) (toUser toDept : GoString)
    (mpNews : List MpNews) (t : Trace) :
    SendOutcome e m (m.SendMpNewsMsg e toUser toDept mpNews t).1
      (m.SendMpNewsMsg e toUser toDept mpNews t).2.2 := by
  refine SendOutcome_of_postMsg e m
    [(str "toUser", JsonValue.str toUser), (str "toDept", .str toDept),
      (str "msgType", .str MsgTypeMpNews), (str "MpNews", .arr (m.mpNewsLoop e mpNews t).1.1)]
    (m.mpNewsLoop e mpNews t).2 _ _ ?_ ?_
  · unfold MsgApp.SendMpNewsMsg
    simp only []
    split <;> simp_all
  · intro rsp h
    unfold MsgApp.SendMpNewsMsg
    simp only []
    split
    · simp_all
    · rename_i rsp1 t1 heq
      have : rsp1 = rsp := by simp_all
      subst this
      exact Error_eq_none_iff rsp1

theorem SendExLinkMsg_outcome (e : Env) (m : MsgApp) (toUser toDept : GoString)
    (links : List ExLink) (t : Trace) :
    SendOutcome e m (m.SendExLinkMsg e toUser toDept links t).1
      (m.SendExLinkMsg e toUser toDept links t).2.2 := by
  refine SendOutcome_of_postMsg e m
    [(str "toUser", JsonValue.str toUser), (str "toDept", .str toDept),
      (str "msgType", .str MsgTypeExLink), (str "ExLink", .arr (m.exLinkLoop e links t).1.1)]
    (m.exLinkLoop e links t).2 _ _ ?_ ?_
  · unfold MsgApp.SendExLinkMsg
    simp only []
    split <;> simp_all
  · intro rsp h
    unfold MsgApp.SendExLinkMsg
    simp only []
    split
    · simp_all
    · rename_i rsp1 t1 heq
      have : rsp1 = rsp := by simp_all
      subst this
      exact Error_eq_none_iff rsp1

/-- C6: each of the five send operations (`SendTxtMsg`, `SendImgMsg`,
`SendFileMsg`, `SendMpNewsMsg`, `SendExLinkMsg`), for every input, ends with a
POST of its request to the same endpoint `/cgi/msg/send`, and whenever that POST
yields HTTP 200 with a body `NewResponse` accepts, the operation returns nil if
and only if `StatusOK()` holds of the frame. -/
theorem send_same_endpoint_and_status (e : Env) (m : MsgApp) (toUser toDept : GoString)
    (t : Trace) :
    (∀ content, SendOutcome e m (m.SendTxtMsg e toUser toDept content t).1
      (m.SendTxtMsg e toUser toDept content t).2) ∧
    (∀ mediaId, SendOutcome e m (m.SendImgMsg e toUser toDept mediaId t).1
      (m.SendImgMsg e toUser toDept mediaId t).2) ∧
    (∀ mediaId, SendOutcome e m (m.SendFileMsg e toUser toDept mediaId t).1
      (m.SendFileMsg e toUser toDept mediaId t).2) ∧
    (∀ mpNews, SendOutcome e m (m.SendMpNewsMsg e toUser toDept mpNews t).1
      (m.SendMpNewsMsg e toUser toDept mpNews t).2.2) ∧
    (∀ links, SendOutcome e m (m.SendExLinkMsg e toUser toDept links t).1
      (m.SendExLinkMsg e toUser toDept links t).2.2) :=
  ⟨fun _ => SendTxtMsg_outcome e m _ _ _ t, fun _ => SendImgMsg_outcome e m _ _ _ t,
    fun _ => SendFileMsg_outcome e m _ _ _ t, fun _ => SendMpNewsMsg_outcome e m _ _ _ t,
    fun _ => SendExLinkMsg_outcome e m _ _ _ t⟩

/-- The send operations on the sample server that answers `errcode` 0. -/
theorem send_same_endpoint_and_status_witness :
    SendOutcome Env.okServer clientA1
      (clientA1.SendTxtMsg Env.okServer (str "sa08") [] (str "hello") []).1
      (clientA1.SendTxtMsg Env.okServer (str "sa08") [] (str "hello") []).2 :=
  (send_same_endpoint_and_status Env.okServer clientA1 (str "sa08") [] []).1 (str "hello")

/-! ## A failed upload while composing `MpNews` and `ExLink` messages -/

set_option maxRecDepth 100000 in
/-- C7, the code at the failing input: the entry has no media id and its image
cannot be read, so `UploadImage` returns an error; `SendMpNewsMsg` and
`SendExLinkMsg` discard it, post the message with an empty `media_id` to the
send endpoint and return nil when the server answers `errcode` 0. The sibling
`SendImg` returns the error of the upload and posts nothing. -/
theorem send_after_failed_upload :
    (clientA1.UploadImage Env.okServer (str "MpNews.jpg") (str "file/missing.jpg") []).1 =
      ([], some (GoError.new (str "no such file or directory"))) ∧
    clientA1.SendMpNewsMsg Env.okServer (str "sa08") [] [mpNoImage] [] =
      (none, [mpNoImage],
        [Event.readFile (str "file/missing.jpg"), Event.random,
         Event.httpPost (str "http://localhost:7080/cgi/msg/send?accessToken=tok")
           (str "application/json") []]) ∧
    clientA1.SendExLinkMsg Env.okServer (str "sa08") [] [linkNoImage] [] =
      (none, [linkNoImage],
        [Event.readFile (str "file/missing.jpg"), Event.random,
         Event.httpPost (str "http://localhost:7080/cgi/msg/send?accessToken=tok")
           (str "application/json") []]) ∧
    clientA1.SendImg Env.okServer (str "sa08") [] (str "file/missing.jpg") [] =
      (some (GoError.new (str "no such file or directory")),
        [Event.readFile (str "file/missing.jpg")]) := by
  decide

/-! ## `SearchFile` and a frame with `errcode ≠ 0` -/

set_option maxRecDepth 100000 in
/-- C9, the code at the failing input: the answer of `/cgi/media/search` is a
frame with `errcode` 40001. When the frame carries an `encrypt` field,
`SearchFile` returns the name and the size with a nil error; when it does not,
the error is the one of the missing field, without the code and the message of
the frame. `StatusOK()` is not consulted in either case, whereas `GetToken`
returns the error with the code and the message for the same frame. -/
theorem SearchFile_ignores_errcode :
    (NewResponse Env.errFrameServer errFrameBody).toOption.map
      (fun rsp => (rsp.ErrCode, rsp.ErrMsg, rsp.StatusOK)) =
        some (40001, str "bad token", false) ∧
    (clientA1.SearchFile Env.errFrameServer (str "media1") []).1 =
      (str "hello.txt", 10, none) ∧
    (NewResponse Env.badTokenServer badTokenBody).toOption.map
      (fun rsp => (rsp.ErrCode, rsp.ErrMsg, rsp.StatusOK)) =
        some (40001, str "bad token", false) ∧
    (clientA1.SearchFile Env.badTokenServer (str "media1") []).1 =
      ([], 0, some (GoError.wrap (str "Get encrypt error") (GoError.new (str "no such param")))) ∧
    (clientA1.GetToken Env.errFrameServer []).1 =
      ([], 0, some (GoError.new (str "errcode: 40001, errmsg: bad token"))) := by
  decide

/-! ## The URLs of the API calls -/

set_option maxRecDepth 100000 in
/-- C10 as stated fails for `GetToken`: the URL it posts to carries the query
parameter `accessToken` with the stored token. -/
theorem GetToken_url_counterexample :
    postedUrls (clientA1.GetToken Env.offline []).2.2 =
      [str "http://localhost:7080/cgi/gettoken?accessToken=tok"] ∧
    postedUrls (clientA1.GetToken Env.offline []).2.2 ≠
      [clientA1.serverAddr ++ str "/cgi/gettoken"] := by
  decide

theorem postedUrls_append (t1 t2 : Trace) :
    postedUrls (t1 ++ t2) = postedUrls t1 ++ postedUrls t2 := by
  induction t1 with
  | nil => rfl
  | cons ev t ih => cases ev <;> simp [postedUrls, ih]

theorem encrypt_urls (e : Env) (m : MsgApp) (data : Bytes) (t : Trace) :
    postedUrls (m.encrypt e data t).2 = postedUrls t := by
  simp [MsgApp.encrypt, postedUrls_append, postedUrls]

theorem post_urls (e : Env) (m : MsgApp) (api ct : GoString) (req : Bytes) (t : Trace) :
    postedUrls (m.post e api ct req t).2 = postedUrls t ++ [m.apiUrl api] := by
  rw [post_trace, postedUrls_append]
  rfl

theorem getFile_urls (e : Env) (m : MsgApp) (req : Bytes) (t : Trace) :
    postedUrls (m.getFile e req t).2 = postedUrls t ++ [m.apiUrl API_DOWNLOAD_FILE] := by
  have : (m.getFile e req t).2 = t ++ [Event.httpPost (m.apiUrl API_DOWNLOAD_FILE)
      HttpJsonType req] := by
    unfold MsgApp.getFile MsgApp.apiUrl
    simp only []
    split
    · rfl
    · split
      · rfl
      · split <;> rfl
  rw [this, postedUrls_append]
  rfl

theorem get_urls (e : Env) (m : MsgApp) (api : GoString) (q : List (GoString × GoString))
    (t : Trace) :
    postedUrls (m.get e api q t).2 = postedUrls t ++
      (match e.getRequestUrl (m.apiUrl api) q with
       | .ok url => [url]
       | .error _ => []) := by
  unfold MsgApp.get MsgApp.apiUrl
  cases h : e.getRequestUrl (m.serverAddr ++ api ++ str "?accessToken=" ++ m.accToken) q with
  | error err => simp
  | ok url =>
    simp only []
    split
    · simp [postedUrls_append, postedUrls]
    · split
      · simp [postedUrls_append, postedUrls]
      · split
        · simp [postedUrls_append, postedUrls]
        · split <;> simp [postedUrls_append, postedUrls]

theorem GetToken_urls (e : Env) (m : MsgApp) (t : Trace) :
    postedUrls (m.GetToken e t).2.2 = postedUrls t ++
      (if (m.encrypt e (fmtInt (e.nowUnix t)) t).1.2 = none then [m.apiUrl API_GET_TOKEN]
       else []) := by
  have hp := fun bs t1 => post_urls e m API_GET_TOKEN HttpJsonType bs t1
  have he := encrypt_urls e m (fmtInt (e.nowUnix t)) t
  unfold MsgApp.GetToken
  simp only []
  split
  · rename_i h
    rw [h] at he
    simp [h, he]
  · rename_i ct t1 h
    rw [h] at he
    simp only [h, if_true]
    have hp1 := hp (m.frame e ct) t1
    split
    · rename_i h2
      rw [h2] at hp1
      simpa [he] using hp1
    · rename_i h2
      rw [h2] at hp1
      simp only [he] at hp1
      split
      · exact hp1
      · split
        · exact hp1
        · split <;> exact hp1

theorem postMsg_urls (e : Env) (m : MsgApp) (msg : List (GoString × JsonValue)) (t : Trace) :
    postedUrls (m.postMsg e msg t).2 = postedUrls t ++ [m.apiUrl API_SEND_MSG] := by
  unfold MsgApp.postMsg
  simp only []
  rw [post_urls, encrypt_urls]

theorem SendTxtMsg_urls (e : Env) (m : MsgApp) (toUser toDept content : GoString) (t : Trace) :
    postedUrls (m.SendTxtMsg e toUser toDept content t).2 =
      postedUrls t ++ [m.apiUrl API_SEND_MSG] := by
  have hp := fun msg => postMsg_urls e m msg t
  unfold MsgApp.SendTxtMsg
  simp only []
  split
  · rename_i h
    have := congrArg (fun r => postedUrls r.2) h
    simp only [hp] at this
    exact this.symm
  · rename_i h
    have := congrArg (fun r => postedUrls r.2) h
    simp only [hp] at this
    split <;> exact this.symm

theorem SendImgMsg_urls (e : Env) (m : MsgApp) (toUser toDept mediaId : GoString) (t : Trace) :
    postedUrls (m.SendImgMsg e toUser toDept mediaId t).2 =
      postedUrls t ++ [m.apiUrl API_SEND_MSG] := by
  have hp := fun msg => postMsg_urls e m msg t
  unfold MsgApp.SendImgMsg
  simp only []
  split <;>
  · rename_i h
    have := congrArg (fun r => postedUrls r.2) h
    simp only [hp] at this
    exact this.symm

theorem SendFileMsg_urls (e : Env) (m : MsgApp) (toUser toDept mediaId : GoString) (t : Trace) :
    postedUrls (m.SendFileMsg e toUser toDept mediaId t).2 =
      postedUrls t ++ [m.apiUrl API_SEND_MSG] := by
  have hp := fun msg => postMsg_urls e m msg t
  unfold MsgApp.SendFileMsg
  simp only []
  split <;>
  · rename_i h
    have := congrArg (fun r => postedUrls r.2) h
    simp only [hp] at this
    exact this.symm

theorem upload_urls (e : Env) (m : MsgApp) (ftype fname : GoString) (data : Bytes) (t : Trace) :
    postedUrls (m.upload e ftype fname data t).2 =
      postedUrls t ++ [m.apiUrl API_UPLOAD_FILE] := by
  have hp := fun ct bs t1 => post_urls e m API_UPLOAD_FILE ct bs t1
  unfold MsgApp.upload
  simp only []
  split
  · rename_i h
    have := (congrArg (fun r => postedUrls r.2) h).symm
    simp only [hp, encrypt_urls] at this
    exact this
  · rename_i h
    have := (congrArg (fun r => postedUrls r.2) h).symm
    simp only [hp, encrypt_urls] at this
    split
    · exact this
    · split
      · exact this
      · split
        · exact this
        · split <;> exact this

theorem download_urls (e : Env) (m : MsgApp) (mediaId : GoString) (t : Trace) :
    postedUrls (m.download e mediaId t).2 = postedUrls t ++ [m.apiUrl API_DOWNLOAD_FILE] := by
  have hp := fun bs t1 => getFile_urls e m bs t1
  unfold MsgApp.download
  simp only []
  split
  · rename_i h
    have := (congrArg (fun r => postedUrls r.2) h).symm
    simp only [hp, encrypt_urls] at this
    exact this
  · rename_i h
    have := (congrArg (fun r => postedUrls r.2) h).symm
    simp only [hp, encrypt_urls] at this
    split <;> exact this

theorem SearchFile_urls (e : Env) (m : MsgApp) (mediaId : GoString) (t : Trace) :
    postedUrls (m.SearchFile e mediaId t).2 = postedUrls t ++ [m.apiUrl API_SEARCH_FILE] := by
  have hp := fun bs t1 => post_urls e m API_SEARCH_FILE HttpJsonType bs t1
  unfold MsgApp.SearchFile
  simp only []
  split
  · rename_i h
    have := (congrArg (fun r => postedUrls r.2) h).symm
    simp only [hp, encrypt_urls] at this
    exact this
  · rename_i h
    have := (congrArg (fun r => postedUrls r.2) h).symm
    simp only [hp, encrypt_urls] at this
    split
    · exact this
    · split
      · exact this
      · split
        · exact this
        · split <;> exact this

theorem GetUserInfo_urls (e : Env) (m : MsgApp) (user : GoString) (t : Trace) :
    postedUrls (m.GetUserInfo e user t).2 = postedUrls t ++
      (match e.getRequestUrl (m.apiUrl API_GET_USER) [(QUERY_USERID, user)] with
       | .ok url => [url]
       | .error _ => []) := by
  have hp := get_urls e m API_GET_USER [(QUERY_USERID, user)] t
  unfold MsgApp.GetUserInfo
  simp only []
  split
  · rename_i h
    rw [h] at hp
    exact hp
  · rename_i h
    rw [h] at hp
    split
    · exact hp
    · split
      · exact hp
      · split
        · exact hp
        · split <;> exact hp

theorem UploadImage_urls (e : Env) (m : MsgApp) (name path : GoString) (t : Trace) :
    ∃ k, k ≤ 1 ∧ postedUrls (m.UploadImage e name path t).2 =
      postedUrls t ++ List.replicate k (m.apiUrl API_UPLOAD_FILE) := by
  unfold MsgApp.UploadImage
  simp only []
  split
  · exact ⟨0, by omega, by simp [postedUrls_append, postedUrls]⟩
  · exact ⟨1, by omega, by simp [upload_urls, postedUrls_append, postedUrls]⟩

theorem mpNewsLoop_urls (e : Env) (m : MsgApp) (l : List MpNews) (t : Trace) :
    ∃ k, k ≤ l.length ∧ postedUrls (m.mpNewsLoop e l t).2 =
      postedUrls t ++ List.replicate k (m.apiUrl API_UPLOAD_FILE) := by
  induction l generalizing t with
  | nil => exact ⟨0, by simp, by simp [MsgApp.mpNewsLoop]⟩
  | cons mp rest ih =>
    unfold MsgApp.mpNewsLoop
    simp only []
    split
    · obtain ⟨k1, hk1, h1⟩ := UploadImage_urls e m (str "MpNews.jpg") mp.Path t
      obtain ⟨k2, hk2, h2⟩ := ih (m.UploadImage e (str "MpNews.jpg") mp.Path t).2
      refine ⟨k1 + k2, by simp; omega, ?_⟩
      rw [h2, h1, List.append_assoc, ← List.replicate_add]
    · obtain ⟨k2, hk2, h2⟩ := ih t
      exact ⟨k2, by simp; omega, h2⟩

theorem exLinkLoop_urls (e : Env) (m : MsgApp) (l : List ExLink) (t : Trace) :
    ∃ k, k ≤ l.length ∧ postedUrls (m.exLinkLoop e l t).2 =
      postedUrls t ++ List.replicate k (m.apiUrl API_UPLOAD_FILE) := by
  induction l generalizing t with
  | nil => exact ⟨0, by simp, by simp [MsgApp.exLinkLoop]⟩
  | cons link rest ih =>
    unfold MsgApp.exLinkLoop
    simp only []
    split
    · obtain ⟨k1, hk1, h1⟩ := UploadImage_urls e m (str "ExLink.jpg") link.Path t
      obtain ⟨k2, hk2, h2⟩ := ih (m.UploadImage e (str "ExLink.jpg") link.Path t).2
      refine ⟨k1 + k2, by simp; omega, ?_⟩
      rw [h2, h1, List.append_assoc, ← List.replicate_add]
    · obtain ⟨k2, hk2, h2⟩ := ih t
      exact ⟨k2, by simp; omega, h2⟩

theorem SendMpNewsMsg_urls (e : Env) (m : MsgApp) (toUser toDept : GoString)
    (mpNews : List MpNews) (t : Trace) :
    ∃ k, k ≤ mpNews.length ∧ postedUrls (m.SendMpNewsMsg e toUser toDept mpNews t).2.2 =
      postedUrls t ++ List.replicate k (m.apiUrl API_UPLOAD_FILE) ++ [m.apiUrl API_SEND_MSG] := by
  obtain ⟨k, hk, h⟩ := mpNewsLoop_urls e m mpNews t
  refine ⟨k, hk, ?_⟩
  have hp := fun msg => postMsg_urls e m msg (m.mpNewsLoop e mpNews t).2
  unfold MsgApp.SendMpNewsMsg
  simp only []
  split <;>
  · rename_i h1
    have := (congrArg (fun r => postedUrls r.2) h1).symm
    simp only [hp, h] at this
    exact this

theorem SendExLinkMsg_urls (e : Env) (m : MsgApp) (toUser toDept : GoString)
    (links : List ExLink) (t : Trace) :
    ∃ k, k ≤ links.length ∧ postedUrls (m.SendExLinkMsg e toUser toDept links t).2.2 =
      postedUrls t ++ List.replicate k (m.apiUrl API_UPLOAD_FILE) ++ [m.apiUrl API_SEND_MSG] := by
  obtain ⟨k, hk, h⟩ := exLinkLoop_urls e m links t
  refine ⟨k, hk, ?_⟩
  have hp := fun msg => postMsg_urls e m msg (m.exLinkLoop e links t).2
  unfold MsgApp.SendExLinkMsg
  simp only []
  split <;>
  · rename_i h1
    have := (congrArg (fun r => postedUrls r.2) h1).symm
    simp only [hp, h] at this
    exact this

/-- C10 (amended): for every client state, every API call, the token exchange
included, goes to the server address followed by the endpoint and by the query
parameter `accessToken` with the currently stored token (`apiUrl`): `GetToken`
posts to `serverAddr + "/cgi/gettoken" + "?accessToken=" + token` (unless the
encryption of the timestamp fails, in which case nothing is posted); the send
operations, `upload`, `download` and `SearchFile` post to their endpoint in the
same way (`SendMpNewsMsg` and `SendExLinkMsg` after at most one upload per
entry); `GetUserInfo` hands the URL of `/cgi/user/get`, built in the same way,
with the query `userId` to the GET request. -/
theorem api_urls_carry_token (e : Env) (m : MsgApp) (t : Trace) :
    m.apiUrl API_GET_TOKEN = m.serverAddr ++ str "/cgi/gettoken" ++ str "?accessToken="
      ++ m.accToken ∧
    postedUrls (m.GetToken e t).2.2 = postedUrls t ++
      (if (m.encrypt e (fmtInt (e.nowUnix t)) t).1.2 = none then [m.apiUrl API_GET_TOKEN]
       else []) ∧
    (∀ toUser toDept content, postedUrls (m.SendTxtMsg e toUser toDept content t).2 =
      postedUrls t ++ [m.apiUrl API_SEND_MSG]) ∧
    (∀ toUser toDept mediaId, postedUrls (m.SendImgMsg e toUser toDept mediaId t).2 =
      postedUrls t ++ [m.apiUrl API_SEND_MSG]) ∧
    (∀ toUser toDept mediaId, postedUrls (m.SendFileMsg e toUser toDept mediaId t).2 =
      postedUrls t ++ [m.apiUrl API_SEND_MSG]) ∧
    (∀ toUser toDept mpNews, ∃ k, k ≤ mpNews.length ∧
      postedUrls (m.SendMpNewsMsg e toUser toDept mpNews t).2.2 =
        postedUrls t ++ List.replicate k (m.apiUrl API_UPLOAD_FILE) ++ [m.apiUrl API_SEND_MSG]) ∧
    (∀ toUser toDept links, ∃ k, k ≤ links.length ∧
      postedUrls (m.SendExLinkMsg e toUser toDept links t).2.2 =
        postedUrls t ++ List.replicate k (m.apiUrl API_UPLOAD_FILE) ++ [m.apiUrl API_SEND_MSG]) ∧
    (∀ ftype fname data, postedUrls (m.upload e ftype fname data t).2 =
      postedUrls t ++ [m.apiUrl API_UPLOAD_FILE]) ∧
    (∀ mediaId, postedUrls (m.download e mediaId t).2 =
      postedUrls t ++ [m.apiUrl API_DOWNLOAD_FILE]) ∧
    (∀ mediaId, postedUrls (m.SearchFile e mediaId t).2 =
      postedUrls t ++ [m.apiUrl API_SEARCH_FILE]) ∧
    (∀ user, postedUrls (m.GetUserInfo e user t).2 = postedUrls t ++
      (match e.getRequestUrl (m.apiUrl API_GET_USER) [(QUERY_USERID, user)] with
       | .ok url => [url]
       | .error _ => [])) :=
  ⟨rfl, GetToken_urls e m t, fun _ _ _ => SendTxtMsg_urls e m _ _ _ t,
    fun _ _ _ => SendImgMsg_urls e m _ _ _ t, fun _ _ _ => SendFileMsg_urls e m _ _ _ t,
    fun _ _ _ => SendMpNewsMsg_urls e m _ _ _ t, fun _ _ _ => SendExLinkMsg_urls e m _ _ _ t,
    fun _ _ _ => upload_urls e m _ _ _ t, fun _ => download_urls e m _ t,
    fun _ => SearchFile_urls e m _ t, fun _ => GetUserInfo_urls e m _ t⟩

/-! ## `StatusOK` and an `errcode` that is not an `int32` -/

theorem tdiv_eq_zero_iff (a : Int) (d : Nat) (hd : 0 < d) :
    Int.tdiv a d = 0 ↔ -(d : Int) < a ∧ a < d := by
  rw [← Int.natAbs_eq_zero, Int.natAbs_tdiv, Int.natAbs_ofNat]
  show a.natAbs / d = 0 ↔ _
  rw [Nat.div_eq_zero_iff hd]
  omega

/-- The integer part of a rational is 0 exactly when it lies strictly between
-1 and 1. -/
theorem trunc_eq_zero_iff (x : ℚ) : Int.tdiv x.num x.den = 0 ↔ -1 < x ∧ x < 1 := by
  rw [tdiv_eq_zero_iff _ _ x.den_pos, Rat.lt_one_iff_num_lt_denom, Rat.lt_def]
  simp

/-- The integer part of a rational strictly between -2^31 - 1 and 2^31 is an
`int32`. -/
theorem trunc_range (x : ℚ) (h1 : -2147483649 < x) (h2 : x < 2147483648) :
    -2147483648 ≤ Int.tdiv x.num x.den ∧ Int.tdiv x.num x.den ≤ 2147483647 := by
  have hd : (0 : Int) < x.den := by exact_mod_cast x.den_pos
  rw [Rat.lt_def] at h1 h2
  simp at h1 h2
  by_cases hn : 0 ≤ x.num
  · rw [Int.tdiv_eq_ediv hn (le_of_lt hd)]
    have : x.num / x.den < 2147483648 := Int.ediv_lt_of_lt_mul hd h2
    have h0 : 0 ≤ x.num / x.den := Int.ediv_nonneg hn (le_of_lt hd)
    omega
  · have hn1 : 0 ≤ -x.num := by omega
    have : x.num = -(-x.num) := by omega
    rw [this, Int.neg_tdiv, Int.tdiv_eq_ediv hn1 (le_of_lt hd)]
    have h3 : -x.num / x.den < 2147483649 := Int.ediv_lt_of_lt_mul hd (by linarith)
    have h0 : 0 ≤ -x.num / x.den := Int.ediv_nonneg hn1 (le_of_lt hd)
    omega

theorem float64ToInt32_eq_zero_iff (e : Env) (x : ℚ) (h1 : -2147483649 < x)
    (h2 : x < 2147483648) : float64ToInt32 e x = 0 ↔ -1 < x ∧ x < 1 := by
  have hr := trunc_range x h1 h2
  simp only [float64ToInt32, hr, and_self, if_true]
  exact trunc_eq_zero_iff x

/-- A frame `NewResponse` accepts on an object with a numeric `errcode` and a
string `errmsg`. -/
theorem NewResponse_of_fields (e : Env) (bs : Bytes) (fields : List (GoString × JsonValue))
    (x : ℚ) (msg : GoString)
    (hparse : e.jsonParse bs = .ok (.obj fields))
    (hcode : objField fields (str "errcode") = some (.num x))
    (hmsg : objField fields (str "errmsg") = some (.str msg)) :
    ∃ param, NewResponse e bs =
      .ok { ErrCode := float64ToInt32 e x, ErrMsg := msg, param := param, body := bs } := by
  obtain ⟨param, hp, hget⟩ := jsonUnmarshalMap_obj e bs fields hparse
  refine ⟨param, ?_⟩
  simp [NewResponse, hp, ApiResponse.GetInt32, ApiResponse.GetString,
    (hget (str "errcode")).trans hcode, (hget (str "errmsg")).trans hmsg]

/-- What `NewResponse` accepts: a JSON object with a numeric `errcode` and a
string `errmsg`; `ErrCode` is the `int32` conversion of that number. -/
theorem NewResponse_ok_inv (e : Env) (bs : Bytes) (rsp : ApiResponse)
    (h : NewResponse e bs = .ok rsp) :
    ∃ fields x msg, e.jsonParse bs = .ok (.obj fields) ∧
      objField fields (str "errcode") = some (.num x) ∧
      objField fields (str "errmsg") = some (.str msg) ∧
      rsp.ErrCode = float64ToInt32 e x := by
  cases hparse : e.jsonParse bs with
  | error err => simp [NewResponse, jsonUnmarshalMap, hparse] at h
  | ok v =>
    cases v with
    | obj fields =>
      cases hcode : objField fields (str "errcode") with
      | none =>
        obtain ⟨param, hp, hget⟩ := jsonUnmarshalMap_obj e bs fields hparse
        simp [NewResponse, hp, ApiResponse.GetInt32, (hget (str "errcode")).trans hcode] at h
      | some c =>
        cases c with
        | num x =>
          cases hmsg : objField fields (str "errmsg") with
          | none =>
            obtain ⟨param, hp, hget⟩ := jsonUnmarshalMap_obj e bs fields hparse
            simp [NewResponse, hp, ApiResponse.GetInt32, ApiResponse.GetString,
              (hget (str "errcode")).trans hcode, (hget (str "errmsg")).trans hmsg] at h
          | some w =>
            cases w with
            | str msg =>
              obtain ⟨param, hr⟩ := NewResponse_of_fields e bs fields x msg hparse hcode hmsg
              rw [hr] at h
              cases h
              exact ⟨fields, x, msg, rfl, hcode, hmsg, rfl⟩
            | _ =>
              obtain ⟨param, hp, hget⟩ := jsonUnmarshalMap_obj e bs fields hparse
              simp [NewResponse, hp, ApiResponse.GetInt32, ApiResponse.GetString,
                (hget (str "errcode")).trans hcode, (hget (str "errmsg")).trans hmsg] at h
        | _ =>
          obtain ⟨param, hp, hget⟩ := jsonUnmarshalMap_obj e bs fields hparse
          simp [NewResponse, hp, ApiResponse.GetInt32, (hget (str "errcode")).trans hcode] at h
    | null => simp [NewResponse, jsonUnmarshalMap, hparse, ApiResponse.GetInt32, mapGet] at h
    | _ => simp [NewResponse, jsonUnmarshalMap, hparse] at h

/-- The integer part of a rational that is at least 2^31 or at most -2^31 - 1
is not an `int32`. -/
theorem trunc_out_of_range (x : ℚ) (h : x ≤ -2147483649 ∨ 2147483648 ≤ x) :
    ¬ (-2147483648 ≤ Int.tdiv x.num x.den ∧ Int.tdiv x.num x.den ≤ 2147483647) := by
  have hd : (0 : Int) < x.den := by exact_mod_cast x.den_pos
  rcases h with h | h
  · rw [Rat.le_def] at h
    simp at h
    have hn1 : 0 ≤ -x.num := by nlinarith
    have : x.num = -(-x.num) := by omega
    rw [this, Int.neg_tdiv, Int.tdiv_eq_ediv hn1 (le_of_lt hd)]
    have h3 : 2147483649 ≤ -x.num / x.den := Int.le_ediv_of_mul_le hd (by linarith)
    omega
  · rw [Rat.le_def] at h
    simp at h
    have hn : 0 ≤ x.num := by nlinarith
    rw [Int.tdiv_eq_ediv hn (le_of_lt hd)]
    have h3 : 2147483648 ≤ x.num / x.den := Int.le_ediv_of_mul_le hd h
    omega

/-- C11 (amended): for every response body that `NewResponse` accepts, the
body is a JSON object whose `errcode` is a number `x`, and `StatusOK()` is true
if and only if the `int32` that `GetInt32` converts `x` to is 0. When the integer
part of `x` is an `int32` (`-2^31 - 1 < x < 2^31`) the conversion discards the
fraction, so `StatusOK()` is true iff `-1 < x < 1`: for an `int32` value iff
`x = 0`, and a non-integer such as 0.5 counts as success. When `x` is outside
that range, `StatusOK()` is true iff the conversion the implementation chooses
for such a value gives 0. -/
theorem StatusOK_iff_converted_zero (e : Env) (bs : Bytes) (rsp : ApiResponse)
    (h : NewResponse e bs = .ok rsp) :
    ∃ fields x, e.jsonParse bs = .ok (.obj fields) ∧
      objField fields (str "errcode") = some (.num x) ∧
      (rsp.StatusOK = true ↔ float64ToInt32 e x = 0) ∧
      (-2147483649 < x → x < 2147483648 → (rsp.StatusOK = true ↔ -1 < x ∧ x < 1)) ∧
      (∀ c : Int, x = c → -2147483648 ≤ c → c ≤ 2147483647 →
        (rsp.StatusOK = true ↔ x = 0)) ∧
      (x ≤ -2147483649 ∨ 2147483648 ≤ x →
        (rsp.StatusOK = true ↔ toInt32 (e.int32OutOfRange x) = 0)) := by
  obtain ⟨fields, x, msg, hparse, hcode, -, hc⟩ := NewResponse_ok_inv e bs rsp h
  have hs : rsp.StatusOK = true ↔ float64ToInt32 e x = 0 := by
    simp [ApiResponse.StatusOK, StatusOK, hc]
  refine ⟨fields, x, hparse, hcode, hs, ?_, ?_, ?_⟩
  · intro h1 h2
    rw [hs]
    exact float64ToInt32_eq_zero_iff e x h1 h2
  · intro c hx h1 h2
    rw [hs, hx, float64ToInt32_intCast e c h1 h2]
    exact Int.cast_eq_zero.symm
  · intro hout
    rw [hs]
    simp only [float64ToInt32, trunc_out_of_range x hout, if_false]

/-- The frame `{"errcode": 40001, "errmsg": "bad token"}`. -/
theorem StatusOK_iff_converted_zero_witness :
    ∃ rsp, NewResponse Env.badToken badTokenBody = .ok rsp ∧
      ∃ fields x, Env.badToken.jsonParse badTokenBody = .ok (.obj fields) ∧
        objField fields (str "errcode") = some (.num x) ∧
        (rsp.StatusOK = true ↔ float64ToInt32 Env.badToken x = 0) ∧
        (-2147483649 < x → x < 2147483648 → (rsp.StatusOK = true ↔ -1 < x ∧ x < 1)) ∧
        (∀ c : Int, x = c → -2147483648 ≤ c → c ≤ 2147483647 →
          (rsp.StatusOK = true ↔ x = 0)) ∧
        (x ≤ -2147483649 ∨ 2147483648 ≤ x →
          (rsp.StatusOK = true ↔ toInt32 (Env.badToken.int32OutOfRange x) = 0)) :=
  (NewResponse_of_fields Env.badToken badTokenBody
    [(str "errcode", .num ((40001 : Int) : ℚ)), (str "errmsg", .str (str "bad token"))]
    ((40001 : Int) : ℚ) (str "bad token") (by rfl) (by rfl) (by rfl)).elim
    fun _ hr => ⟨_, hr, StatusOK_iff_converted_zero Env.badToken badTokenBody _ hr⟩

/-- C11 as stated fails for the frame `{"errcode": 0.5, "errmsg": "half"}`:
`NewResponse` accepts it and `StatusOK()` is true, although the `errcode` of the
body is not 0. -/
theorem StatusOK_half_counterexample :
    ∃ rsp, NewResponse (Env.parsing (.obj halfFields)) [] = .ok rsp ∧
      objField halfFields (str "errcode") = some (.num (1 / 2)) ∧
      rsp.ErrCode = 0 ∧ rsp.StatusOK = true ∧ (1 / 2 : ℚ) ≠ 0 := by
  obtain ⟨param, hr⟩ := NewResponse_of_fields (Env.parsing (.obj halfFields)) [] halfFields
    (1 / 2) (str "half") (by rfl) (by rfl) (by rfl)
  have h0 : float64ToInt32 (Env.parsing (.obj halfFields)) (1 / 2) = 0 :=
    (float64ToInt32_eq_zero_iff _ _ (by norm_num) (by norm_num)).2
      ⟨by norm_num, by norm_num⟩
  refine ⟨_, hr, by rfl, h0, ?_, by norm_num⟩
  show (float64ToInt32 (Env.parsing (.obj halfFields)) (1 / 2) == ydapp.StatusOK) = true
  rw [h0]
  rfl

end ydapp
